import Mathlib

/-!
Verification development for the routing core of a delivery-logistics
platform: a shallow embedding, in Lean 4, of the batching engine
(`services/routing_service/batching.py`), the heuristic route optimizer
(`services/routing_service/routing.py`), the greedy VRP fallback solver
(`services/routing_service/solver.py`) and the travel-time provider chain
with its TTL cache (`services/routing_service/travel_time.py`), together
with theorems settling the specification claims about them.

Modelling conventions:
* Python floats are idealized as real numbers (`ℝ`); timestamps as
  rationals (`ℚ`, minutes or hours as noted); Python ints as `ℤ`/`ℕ`.
* A Python function that can raise is embedded with an `Option` result,
  `none` marking the raising path.
* `sklearn.cluster.KMeans` is external to the repository; its
  `fit_predict` is modelled as an oracle parameter producing one label
  per sample (see `kmeans_clustering`).
-/

namespace RoutingSpec

/-- `math.radians`: degrees to radians. -/
noncomputable def radians (d : ℝ) : ℝ := d * Real.pi / 180

/-- `BatchingEngine.haversine_distance` / `RoutingEngine.haversine_distance`
(batching.py lines 45-60, routing.py lines 44-59): haversine distance in
kilometres with Earth radius 6371, using `2 * asin (sqrt a)`. -/
noncomputable def haversine (lat1 lng1 lat2 lng2 : ℝ) : ℝ :=
  let lat1r := radians lat1
  let lng1r := radians lng1
  let lat2r := radians lat2
  let lng2r := radians lng2
  let dlat := lat2r - lat1r
  let dlng := lng2r - lng1r
  let a := Real.sin (dlat / 2) ^ 2 +
    Real.cos lat1r * Real.cos lat2r * Real.sin (dlng / 2) ^ 2
  6371 * (2 * Real.arcsin (Real.sqrt a))

/-- `Order` (batching.py lines 16-25).  `created_at` is a timestamp in
minutes (`datetime` idealized as `ℚ`). -/
structure Order where
  id : String
  pickup_lat : ℝ
  pickup_lng : ℝ
  delivery_lat : ℝ
  delivery_lng : ℝ
  created_at : ℚ
  priority : ℤ
  estimated_prep_time_minutes : ℤ

/-- `Batch` (batching.py lines 27-34). -/
structure Batch where
  id : String
  orders : List Order
  center_lat : ℝ
  center_lng : ℝ
  created_at : ℚ
  estimated_duration_minutes : ℤ

/-- Configuration read in `BatchingEngine.__init__` (batching.py lines
39-43); the random seed only seeds `random` and is irrelevant here. -/
structure BatchConfig where
  max_batch_size : Nat
  batch_window_minutes : ℚ

/-- Python `min` over a non-empty sequence of floats (the `[]` case is
never reached by callers). -/
noncomputable def pyListMin : List ℝ → ℝ
  | [] => 0
  | x :: xs => xs.foldl min x

/-- Python `max` over a non-empty sequence of floats. -/
noncomputable def pyListMax : List ℝ → ℝ
  | [] => 0
  | x :: xs => xs.foldl max x

/-- Python `int()` on a float: truncation toward zero. -/
noncomputable def pyInt (x : ℝ) : ℤ := if 0 ≤ x then ⌊x⌋ else -⌊-x⌋

/-- `BatchingEngine.calculate_cluster_center` (batching.py lines 62-78):
mean of all pickup and delivery coordinates. -/
noncomputable def calculate_cluster_center (orders : List Order) : ℝ × ℝ :=
  if orders.isEmpty then (0, 0)
  else
    let lats := orders.foldr (fun o acc => o.pickup_lat :: o.delivery_lat :: acc) []
    let lngs := orders.foldr (fun o acc => o.pickup_lng :: o.delivery_lng :: acc) []
    (lats.sum / (lats.length : ℝ), lngs.sum / (lngs.length : ℝ))

/-- Insert an order into the grid-cell association list, preserving the
first-occurrence ordering of keys like a Python dict. -/
def gridInsert (key : ℤ × ℤ) (o : Order) :
    List ((ℤ × ℤ) × List Order) → List ((ℤ × ℤ) × List Order)
  | [] => [(key, [o])]
  | (k, os) :: rest =>
    if k = key then (k, os ++ [o]) :: rest else (k, os) :: gridInsert key o rest

/-- `BatchingEngine.grid_clustering` (batching.py lines 107-138): fallback
clustering over a `ceil (sqrt n_clusters)`-sided grid of pickup
coordinates. -/
noncomputable def grid_clustering (orders : List Order) (n_clusters : Nat) :
    List (List Order) :=
  if orders.length ≤ n_clusters then orders.map (fun o => [o])
  else
    let minLat := pyListMin (orders.map (fun o => o.pickup_lat))
    let maxLat := pyListMax (orders.map (fun o => o.pickup_lat))
    let minLng := pyListMin (orders.map (fun o => o.pickup_lng))
    let maxLng := pyListMax (orders.map (fun o => o.pickup_lng))
    let gridSize : Nat := ⌈Real.sqrt (n_clusters : ℝ)⌉₊
    let latStep := (maxLat - minLat) / (gridSize : ℝ)
    let lngStep := (maxLng - minLng) / (gridSize : ℝ)
    let cellOf : Order → ℤ × ℤ := fun o =>
      let glat : ℤ := if latStep > 0 then pyInt ((o.pickup_lat - minLat) / latStep) else 0
      let glng : ℤ := if lngStep > 0 then pyInt ((o.pickup_lng - minLng) / lngStep) else 0
      (min glat ((gridSize : ℤ) - 1), min glng ((gridSize : ℤ) - 1))
    (orders.foldl (fun acc o => gridInsert (cellOf o) o acc) []).map (fun p => p.2)

/-- `BatchingEngine.kmeans_clustering` (batching.py lines 80-105).  The
external `sklearn` K-means is modelled by the `oracle` parameter: given the
pickup coordinates and the cluster count it returns the label list of
`fit_predict` (one label in `[0, n_clusters)` per sample) or `none` when it
raises.  Labels violating that contract are routed to the grid fallback,
matching the `except` clause of the source. -/
noncomputable def kmeans_clustering
    (sklearnAvailable : Bool)
    (oracle : List (ℝ × ℝ) → Nat → Option (List Nat))
    (orders : List Order) (n_clusters : Nat) : List (List Order) :=
  if sklearnAvailable = false then grid_clustering orders n_clusters
  else if orders.length ≤ n_clusters then orders.map (fun o => [o])
  else
    match oracle (orders.map (fun o => (o.pickup_lat, o.pickup_lng))) n_clusters with
    | none => grid_clustering orders n_clusters
    | some labels =>
      if labels.length = orders.length ∧ labels.all (fun l => decide (l < n_clusters)) then
        ((List.range n_clusters).map (fun c =>
          (orders.zip labels).filterMap
            (fun p => if p.2 = c then some p.1 else none))).filter
          (fun cl => !cl.isEmpty)
      else grid_clustering orders n_clusters

/-- `BatchingEngine.get_highway_reference_point` (batching.py lines
140-144). -/
noncomputable def get_highway_reference_point : Option (ℝ × ℝ) :=
  some (45.38, -75.70)

open Classical in
/-- `BatchingEngine.filter_orders_by_highway_deviation` (batching.py lines
146-173): keep an order when its pickup or its delivery is within
`max_deviation_km` of the highway reference point. -/
noncomputable def filter_orders_by_highway_deviation
    (orders : List Order) (max_deviation_km : ℝ) : List Order :=
  match get_highway_reference_point with
  | none => orders
  | some (hlat, hlng) =>
    orders.filter (fun o =>
      decide (haversine o.pickup_lat o.pickup_lng hlat hlng ≤ max_deviation_km ∨
        haversine o.delivery_lat o.delivery_lng hlat hlng ≤ max_deviation_km))

open Classical in
/-- `BatchingEngine.validate_cluster_highway_deviation` (batching.py lines
175-193). -/
noncomputable def validate_cluster_highway_deviation
    (cluster : List Order) (max_deviation_km : ℝ) : Bool :=
  if cluster.isEmpty then true
  else
    match get_highway_reference_point with
    | none => true
    | some (hlat, hlng) =>
      let c := calculate_cluster_center cluster
      decide (haversine c.1 c.2 hlat hlng ≤ max_deviation_km)

/-- Contiguous chunks `cluster[i:i+max]` of `balance_batches`; the fuel is
the list length, enough for any positive chunk size. -/
def chunksAux (m : Nat) : Nat → List Order → List (List Order)
  | 0, _ => []
  | _, [] => []
  | fuel + 1, l => l.take m :: chunksAux m fuel (l.drop m)

/-- The per-cluster body of `balance_batches`: keep a fitting cluster,
split an oversized one into chunks.  `none` models the `ValueError` of
`range(0, len(cluster), 0)` when the chunk size is 0. -/
def balanceOne (max_batch_size : Nat) (cluster : List Order) :
    Option (List (List Order)) :=
  if cluster.length ≤ max_batch_size then some [cluster]
  else if max_batch_size = 0 then none
  else some (chunksAux max_batch_size cluster.length cluster)

/-- `BatchingEngine.balance_batches` (batching.py lines 195-208): split
clusters larger than `max_batch_size` into contiguous chunks, keeping
cluster order. -/
def balance_batches (max_batch_size : Nat) :
    List (List Order) → Option (List (List Order))
  | [] => some []
  | cluster :: rest =>
    match balanceOne max_batch_size cluster, balance_batches max_batch_size rest with
    | some a, some b => some (a ++ b)
    | _, _ => none

open Classical in
/-- `BatchingEngine.merge_small_batches` (batching.py lines 210-240):
pairwise-merge a batch of size ≤ 2 with its successor when the combined
size fits and the centroids are within 10 km. -/
noncomputable def merge_small_batches (max_batch_size : Nat) :
    List (List Order) → List (List Order)
  | [] => []
  | [b] => [b]
  | b1 :: b2 :: rest =>
    if b1.length ≤ 2 ∧ b1.length + b2.length ≤ max_batch_size ∧
        haversine (calculate_cluster_center b1).1 (calculate_cluster_center b1).2
          (calculate_cluster_center b2).1 (calculate_cluster_center b2).2 ≤ 10 then
      (b1 ++ b2) :: merge_small_batches max_batch_size rest
    else
      b1 :: merge_small_batches max_batch_size (b2 :: rest)
termination_by l => l.length

/-- `BatchingEngine.filter_orders_by_time_window` (batching.py lines
242-253). -/
def filter_orders_by_time_window (batch_window_minutes : ℚ)
    (orders : List Order) (current_time : ℚ) : List Order :=
  orders.filter (fun o => decide (current_time - batch_window_minutes ≤ o.created_at))

/-- Python sort key `(-priority, created_at)` (batching.py line 288), as a
total boolean order for the stable `mergeSort`. -/
def orderSortLE (a b : Order) : Bool :=
  decide (-a.priority < -b.priority ∨ (-a.priority = -b.priority ∧ a.created_at ≤ b.created_at))

/-- Cluster-count computation of `BatchingEngine.create_batches`
(batching.py lines 290-295).  `none` models the `ZeroDivisionError` of
`len(orders) // (max_batch_size // 2)` when `max_batch_size // 2 == 0`. -/
def nClusters (max_batch_size : Nat) (count : Nat) : Option Nat :=
  if count ≤ max_batch_size then some 1
  else if max_batch_size / 2 = 0 then none
  else some (max 1 (count / (max_batch_size / 2)))

/-- `BatchingEngine.create_batches` (batching.py lines 255-336).  The batch
id suffix drops the wall-clock timestamp of the source (`batch_{ts}_{i}`),
which no claim observes; `current_time` is the non-optional reference
time.  `none` models an uncaught exception. -/
noncomputable def create_batches (cfg : BatchConfig)
    (sklearnAvailable : Bool)
    (oracle : List (ℝ × ℝ) → Nat → Option (List Nat))
    (orders : List Order) (current_time : ℚ)
    (max_highway_deviation_km : ℝ) : Option (List Batch) :=
  if orders.isEmpty then some []
  else
    let eligible := filter_orders_by_time_window cfg.batch_window_minutes orders current_time
    if eligible.isEmpty then some []
    else
      let highwayFiltered := filter_orders_by_highway_deviation eligible max_highway_deviation_km
      let highwayFiltered := if highwayFiltered.isEmpty then eligible else highwayFiltered
      let sorted := highwayFiltered.mergeSort orderSortLE
      match nClusters cfg.max_batch_size sorted.length with
      | none => none
      | some n =>
        let clusters := kmeans_clustering sklearnAvailable oracle sorted n
        let valid := clusters.filter
          (fun cl => validate_cluster_highway_deviation cl max_highway_deviation_km)
        let valid := if valid.isEmpty then clusters else valid
        match balance_batches cfg.max_batch_size valid with
        | none => none
        | some balanced =>
          let finalBatches := merge_small_batches cfg.max_batch_size balanced
          some (((List.range finalBatches.length).zip finalBatches).filterMap
            (fun p =>
              if p.2.isEmpty then none
              else
                let c := calculate_cluster_center p.2
                some { id := s!"batch_{p.1}", orders := p.2,
                       center_lat := c.1, center_lng := c.2,
                       created_at := current_time,
                       estimated_duration_minutes := 0 }))

/-- `RouteStop` (routing.py lines 17-24).  `sequence` is the zero-based
position assigned by the engine. -/
structure RouteStop where
  order_id : String
  stop_type : String
  lat : ℝ
  lng : ℝ
  sequence : Nat
  estimated_arrival_minutes : ℤ

/-- `Route` (routing.py lines 26-33). -/
structure Route where
  batch_id : String
  stops : List RouteStop
  total_distance_km : ℝ
  estimated_duration_minutes : ℤ
  optimization_algorithm : String
  optimization_score : ℝ

/-- Configuration read in `RoutingEngine.__init__` (routing.py lines
38-42); `max_detour_pct` and the seed are never used by the optimizer. -/
structure RoutingConfig where
  tsp_iterations : Nat

/-- Entry `matrix[i][j]` of a distance matrix stored as a list of rows. -/
noncomputable def mEntry (m : List (List ℝ)) (i j : Nat) : ℝ :=
  (m.getD i []).getD j 0

/-- `RoutingEngine.create_distance_matrix` (routing.py lines 61-74):
pairwise haversine distances, zero on the diagonal. -/
noncomputable def create_distance_matrix (points : List (ℝ × ℝ)) : List (List ℝ) :=
  (List.range points.length).map (fun i =>
    (List.range points.length).map (fun j =>
      if i = j then 0
      else
        haversine (points.getD i (0, 0)).1 (points.getD i (0, 0)).2
          (points.getD j (0, 0)).1 (points.getD j (0, 0)).2))

open Classical in
/-- Python `min(iterable, key=f)`: the first element attaining the minimal
key (later elements replace the current best only on a strictly smaller
key). -/
noncomputable def pyMinGo (f : Nat → ℝ) (b : Nat) : List Nat → Nat
  | [] => b
  | x :: xs => if f x < f b then pyMinGo f x xs else pyMinGo f b xs

/-- Python `min` over a list with a key, `none` on the empty list. -/
noncomputable def pyMinBy (f : Nat → ℝ) : List Nat → Option Nat
  | [] => none
  | x :: xs => some (pyMinGo f x xs)

/-- The visiting loop of `nearest_neighbor_tsp` (routing.py lines 88-94):
repeatedly move to the nearest unvisited index, accumulating distance.
The fuel equals the number of unvisited indices. -/
noncomputable def nnAux (m : List (List ℝ)) : Nat → Nat → List Nat → List Nat × ℝ
  | 0, _, _ => ([], 0)
  | fuel + 1, current, unvisited =>
    match pyMinBy (fun x => mEntry m current x) unvisited with
    | none => ([], 0)
    | some nxt =>
      let rest := nnAux m fuel nxt (unvisited.erase nxt)
      (nxt :: rest.1, mEntry m current nxt + rest.2)

/-- `RoutingEngine.nearest_neighbor_tsp` (routing.py lines 76-100): greedy
tour from `start`, closed by returning to `start`.  The CPython iteration
order of the small-int `unvisited` set is modelled as ascending. -/
noncomputable def nearest_neighbor_tsp (m : List (List ℝ)) (start : Nat) :
    List Nat × ℝ :=
  let n := m.length
  if n ≤ 1 then (List.range n, 0)
  else
    let unvisited := (List.range n).erase start
    let walk := nnAux m unvisited.length start unvisited
    (start :: walk.1 ++ [start], walk.2 + mEntry m (walk.1.getLastD start) start)

/-- `RoutingEngine.calculate_tour_distance` (routing.py lines 128-133). -/
noncomputable def calculate_tour_distance (m : List (List ℝ)) : List Nat → ℝ
  | a :: b :: rest => mEntry m a b + calculate_tour_distance m (b :: rest)
  | _ => 0

/-- State of the `two_opt_improvement` loop (routing.py lines 102-126). -/
structure TwoOptState where
  tour : List Nat
  best : List Nat
  bestDist : ℝ
  improved : Bool

/-- The 2-opt move `tour[:i] + tour[i:j+1][::-1] + tour[j+1:]`. -/
def twoOptSwap (t : List Nat) (i j : Nat) : List Nat :=
  t.take i ++ ((t.drop i).take (j + 1 - i)).reverse ++ t.drop (j + 1)

open Classical in
/-- Body of the inner 2-opt loop: accept the swap when it strictly
improves the best distance (routing.py lines 116-124). -/
noncomputable def twoOptTry (m : List (List ℝ)) (s : TwoOptState) (i j : Nat) :
    TwoOptState :=
  let nt := twoOptSwap s.tour i j
  let nd := calculate_tour_distance m nt
  if nd < s.bestDist then ⟨nt, nt, nd, true⟩ else s

/-- One full pass of the nested `for i`/`for j` loops of
`two_opt_improvement`, with `n` the (invariant) tour length:
`i ∈ range(1, n-2)`, `j ∈ range(i+1, n-1)`. -/
noncomputable def twoOptPass (m : List (List ℝ)) (n : Nat) (s0 : TwoOptState) :
    TwoOptState :=
  (List.range' 1 (n - 3)).foldl
    (fun s i => (List.range' (i + 1) (n - 2 - i)).foldl
      (fun s2 j => twoOptTry m s2 i j) s) s0

/-- The `while improved and iterations < tsp_iterations` loop of
`two_opt_improvement`; the fuel is the iteration bound. -/
noncomputable def twoOptLoop (m : List (List ℝ)) (n : Nat) :
    Nat → TwoOptState → TwoOptState
  | 0, s => s
  | fuel + 1, s =>
    if s.improved then twoOptLoop m n fuel (twoOptPass m n { s with improved := false })
    else s

/-- `RoutingEngine.two_opt_improvement` (routing.py lines 102-126). -/
noncomputable def two_opt_improvement (cfg : RoutingConfig) (m : List (List ℝ))
    (tour : List Nat) : List Nat × ℝ :=
  let s0 : TwoOptState := ⟨tour, tour, calculate_tour_distance m tour, true⟩
  let s := twoOptLoop m tour.length cfg.tsp_iterations s0
  (s.best, s.bestDist)

/-- The stop records collected into `all_stops` of `heuristic_route`
(routing.py lines 162-184): order id, stop kind, index into the point
list, coordinates. -/
structure StopInfo where
  order_id : String
  stype : String
  index : Nat
  lat : ℝ
  lng : ℝ

/-- Build the stop records for one kind, with point indices starting at
`base` (the pickup loop uses `base = 1`, the delivery loop
`base = 1 + number of orders`). -/
def buildStops (stype : String) (latf lngf : Order → ℝ) :
    Nat → List Order → List StopInfo
  | _, [] => []
  | base, o :: os =>
    ⟨o.id, stype, base, latf o, lngf o⟩ :: buildStops stype latf lngf (base + 1) os

/-- `all_stops` of `heuristic_route`: pickups at indices `1..k`, then
deliveries at `k+1..2k`. -/
def all_stops (orders : List Order) : List StopInfo :=
  buildStops "pickup" (fun o => o.pickup_lat) (fun o => o.pickup_lng) 1 orders ++
    buildStops "delivery" (fun o => o.delivery_lat) (fun o => o.delivery_lng)
      (1 + orders.length) orders

/-- Conversion of a matched `all_stops` record into a `RouteStop`
(routing.py lines 204-210); the sequence is filled in afterwards. -/
def stopInfoToRouteStop (si : StopInfo) : RouteStop :=
  { order_id := si.order_id, stop_type := si.stype, lat := si.lat,
    lng := si.lng, sequence := 0, estimated_arrival_minutes := 0 }

/-- Renumber `sequence` fields to list positions (the
`for i, stop in enumerate(...)` loop of
`enforce_pickup_before_delivery`, routing.py lines 265-267, and the
`sequence` counter of `heuristic_route`). -/
def renumberStops (l : List RouteStop) : List RouteStop :=
  (List.range l.length).zip l |>.map (fun p => { p.2 with sequence := p.1 })

/-- `RoutingEngine.enforce_pickup_before_delivery` (routing.py lines
243-269): all pickup stops sorted by their old sequence, then all delivery
stops sorted by their old sequence, renumbered `0..n-1`.  (The
`order_stops` dictionary built by the source is dead code and is
omitted.) -/
def enforce_pickup_before_delivery (stops : List RouteStop) : List RouteStop :=
  let pickups := (stops.filter (fun s => s.stop_type == "pickup")).mergeSort
    (fun a b => decide (a.sequence ≤ b.sequence))
  let deliveries := (stops.filter (fun s => s.stop_type == "delivery")).mergeSort
    (fun a b => decide (a.sequence ≤ b.sequence))
  renumberStops (pickups ++ deliveries)

/-- `RoutingEngine.estimate_route_duration` (routing.py lines 271-283). -/
noncomputable def estimate_route_duration (stops : List RouteStop)
    (total_distance_km : ℝ) : ℤ :=
  if stops.isEmpty then 0
  else pyInt (total_distance_km / 25 * 60) + stops.length * 8

/-- `RoutingEngine.heuristic_route` (routing.py lines 135-229). -/
noncomputable def heuristic_route (cfg : RoutingConfig) (batch : Batch)
    (driver_location : Option (ℝ × ℝ)) : Route :=
  if batch.orders.isEmpty then
    { batch_id := batch.id, stops := [], total_distance_km := 0,
      estimated_duration_minutes := 0, optimization_algorithm := "heuristic",
      optimization_score := 100 }
  else
    let startPoint := match driver_location with
      | some d => d
      | none => (batch.center_lat, batch.center_lng)
    let points := startPoint ::
      (batch.orders.map (fun o => (o.pickup_lat, o.pickup_lng)) ++
        batch.orders.map (fun o => (o.delivery_lat, o.delivery_lng)))
    let stops := all_stops batch.orders
    let m := create_distance_matrix points
    let nn := nearest_neighbor_tsp m 0
    let improved := two_opt_improvement cfg m nn.1
    let interior := (improved.1.drop 1).dropLast
    let found := interior.filterMap (fun idx => stops.find? (fun s => s.index == idx))
    let route_stops := renumberStops (found.map stopInfoToRouteStop)
    let finalStops := enforce_pickup_before_delivery route_stops
    { batch_id := batch.id, stops := finalStops,
      total_distance_km := improved.2,
      estimated_duration_minutes := estimate_route_duration finalStops improved.2,
      optimization_algorithm := "heuristic_2opt",
      optimization_score := max 50 (min 100 (100 - improved.2 * 2)) }

/-- `RoutingEngine.vrp_route` (routing.py lines 231-241): every branch
(backend missing, `try`, `except`) delegates to `heuristic_route`. -/
noncomputable def vrp_route (cfg : RoutingConfig) (batch : Batch)
    (driver_location : Option (ℝ × ℝ)) : Route :=
  heuristic_route cfg batch driver_location

/-- `RoutingEngine.optimize_route` (routing.py lines 285-291);
`ortoolsAvailable` models the import-probe flag `ORTOOLS_AVAILABLE`. -/
noncomputable def optimize_route (cfg : RoutingConfig) (ortoolsAvailable : Bool)
    (batch : Batch) (driver_location : Option (ℝ × ℝ))
    (algorithm : String) : Route :=
  if algorithm == "vrp" && ortoolsAvailable then vrp_route cfg batch driver_location
  else heuristic_route cfg batch driver_location

/-- Python `math.atan2`. -/
noncomputable def pyAtan2 (y x : ℝ) : ℝ :=
  if 0 < x then Real.arctan (y / x)
  else if x < 0 then
    (if 0 ≤ y then Real.arctan (y / x) + Real.pi else Real.arctan (y / x) - Real.pi)
  else if 0 < y then Real.pi / 2
  else if y < 0 then -(Real.pi / 2)
  else 0

/-- `Location` (solver.py lines 32-37). -/
structure SLocation where
  lat : ℝ
  lng : ℝ
  lid : String

/-- `Location.distance_to` (solver.py lines 39-53): haversine with the
`atan2` formulation. -/
noncomputable def distance_to (a b : SLocation) : ℝ :=
  let lat1r := radians a.lat
  let lat2r := radians b.lat
  let dlat := radians (b.lat - a.lat)
  let dlng := radians (b.lng - a.lng)
  let h := Real.sin (dlat / 2) ^ 2 +
    Real.cos lat1r * Real.cos lat2r * Real.sin (dlng / 2) ^ 2
  6371 * (2 * pyAtan2 (Real.sqrt h) (Real.sqrt (1 - h)))

/-- `Stop` (solver.py lines 56-66). -/
structure VStop where
  sid : String
  location : SLocation
  stop_type : String
  order_id : Option String
  service_time : ℤ
  time_window : Option (ℤ × ℤ)
  priority : ℤ

/-- `Vehicle` (solver.py lines 68-77). -/
structure Vehicle where
  vid : String
  start_location : SLocation
  end_location : Option SLocation
  capacity : ℤ
  max_duration : ℤ
  vehicle_type : String

/-- A stop dictionary appended to a fallback route (solver.py lines
538-547). -/
structure FallbackStop where
  stop_id : String
  order_id : Option String
  stop_type : String
  lat : ℝ
  lng : ℝ
  sequence : Nat
  arrival_time : ℤ
  service_time : ℤ

/-- `RouteResult` (solver.py lines 79-88). -/
structure RouteResult where
  vehicle_id : String
  stops : List FallbackStop
  total_distance_km : ℝ
  total_duration_minutes : ℤ
  load_sequence : List ℤ
  arrival_times : List ℤ
  optimization_score : ℝ

noncomputable instance : DecidableEq SLocation := Classical.decEq _

noncomputable instance : DecidableEq VStop := Classical.decEq _

/-- Python `round(x, 2)` (ties-to-even deviations are immaterial to every
claim). -/
noncomputable def pyRound2 (x : ℝ) : ℝ := (⌊x * 100 + 1 / 2⌋ : ℤ) / 100

/-- `ORToolsSolver._calculate_optimization_score` (solver.py lines
591-608). -/
noncomputable def calculate_optimization_score (route_stops : List FallbackStop)
    (total_distance : ℝ) (total_time : ℤ) (vehicle : Vehicle) : ℝ :=
  if route_stops.isEmpty then 0
  else
    let distance_score := max 0 (100 - total_distance * 2)
    let time_score : ℝ := max 0 (100 - (total_time : ℝ) / 3600 * 20)
    let capacity_used := (route_stops.filter (fun s => s.stop_type == "pickup")).length
    let capacity_score : ℝ :=
      if 0 < vehicle.capacity then (capacity_used : ℝ) / (vehicle.capacity : ℝ) * 100
      else 50
    let score := distance_score * 4 / 10 + time_score * 4 / 10 + capacity_score * 2 / 10
    (⌊min 100 (max 0 score) * 10 + 1 / 2⌋ : ℤ) / 10

/-- The capacity delta of a stop in the fallback solver's feasibility
check: `+1` for a pickup, `-1` otherwise (solver.py line 522). -/
def capacityChange (s : VStop) : ℤ := if s.stop_type == "pickup" then 1 else -1

/-- The capacity update applied after a stop is appended: `+1` for a
pickup, `-1` for a delivery, unchanged otherwise (solver.py lines
551-555). -/
def capacityUpdate (s : VStop) : ℤ :=
  if s.stop_type == "pickup" then 1
  else if s.stop_type == "delivery" then -1 else 0

open Classical in
/-- The nearest-feasible-stop scan of `_fallback_solver` (solver.py lines
515-525): walk `remaining`, replacing the candidate on a strictly smaller
distance when the capacity constraint admits the stop. -/
noncomputable def selectNearest (cap used : ℤ) (cur : SLocation)
    (remaining : List VStop) : Option (VStop × ℝ) :=
  remaining.foldl (fun acc s =>
    let d := distance_to cur s.location
    match acc with
    | none => if used + capacityChange s ≤ cap then some (s, d) else none
    | some (b, bd) =>
      if d < bd ∧ used + capacityChange s ≤ cap then some (s, d) else some (b, bd))
    none

/-- Intermediate state of one vehicle's greedy walk in
`_fallback_solver`. -/
structure FallbackVehicleState where
  route : List FallbackStop
  remaining : List VStop
  used : ℤ
  totalTime : ℤ
  totalDist : ℝ

open Classical in
/-- The `while remaining_stops and vehicle_capacity_used < capacity` loop
of `_fallback_solver` (solver.py lines 513-555); the fuel is the number of
remaining stops. -/
noncomputable def fallbackVehicleLoop (tt : SLocation → SLocation → ℤ × ℝ)
    (cap : ℤ) : Nat → SLocation → FallbackVehicleState → FallbackVehicleState
  | 0, _, st => st
  | fuel + 1, cur, st =>
    if st.remaining.isEmpty = false ∧ st.used < cap then
      match selectNearest cap st.used cur st.remaining with
      | none => st
      | some (s, _) =>
        let travel := tt cur s.location
        let newTime := st.totalTime + travel.1 + s.service_time
        let newStop : FallbackStop :=
          { stop_id := s.sid, order_id := s.order_id, stop_type := s.stop_type,
            lat := s.location.lat, lng := s.location.lng,
            sequence := st.route.length, arrival_time := newTime - s.service_time,
            service_time := s.service_time }
        fallbackVehicleLoop tt cap fuel s.location
          { route := st.route ++ [newStop],
            remaining := st.remaining.erase s,
            used := st.used + capacityUpdate s,
            totalTime := newTime,
            totalDist := st.totalDist + travel.2 }
    else st

/-- `ORToolsSolver._fallback_solver` (solver.py lines 490-572),
parametrized by the travel-time provider `tt` (seconds, kilometres).
`none` models the `IndexError` of the eagerly evaluated `stops[0]`
default on an empty stop list. -/
noncomputable def fallback_solver (tt : SLocation → SLocation → ℤ × ℝ)
    (vehicles : List Vehicle) (stops : List VStop) :
    Option (List RouteResult) :=
  match stops with
  | [] => none
  | s0 :: _ =>
    let depot := (stops.find? (fun s => s.stop_type == "depot")).getD s0
    let remaining0 := stops.filter (fun s => s.stop_type != "depot")
    some (vehicles.foldl (fun acc v =>
      if acc.2.isEmpty then acc
      else
        let final := fallbackVehicleLoop tt v.capacity acc.2.length depot.location
          { route := [], remaining := acc.2, used := 0, totalTime := 0, totalDist := 0 }
        if final.route.isEmpty then (acc.1, final.remaining)
        else
          let res : RouteResult :=
            { vehicle_id := v.vid, stops := final.route,
              total_distance_km := pyRound2 final.totalDist,
              total_duration_minutes := final.totalTime / 60,
              load_sequence := [], arrival_times := [],
              optimization_score :=
                calculate_optimization_score final.route final.totalDist final.totalTime v }
          (acc.1 ++ [res], final.remaining))
      (([] : List RouteResult), remaining0)).1

/-- `TravelTimeRequest` (travel_time.py lines 32-40); `departure_time` in
hours. -/
structure TravelTimeRequest where
  from_lat : ℝ
  from_lng : ℝ
  to_lat : ℝ
  to_lng : ℝ
  mode : String
  departure_time : Option ℚ

/-- `TravelTimeResult` (travel_time.py lines 43-51). -/
structure TravelTimeResult where
  duration_seconds : ℤ
  distance_meters : ℝ
  mode : String
  provider : String
  cached : Bool
  calculated_at : Option ℚ

/-- `BaseTravelTimeProvider._haversine_distance` (travel_time.py lines
256-270): the `atan2` haversine formulation. -/
noncomputable def tt_haversine (lat1 lng1 lat2 lng2 : ℝ) : ℝ :=
  let lat1r := radians lat1
  let lat2r := radians lat2
  let dlat := radians (lat2 - lat1)
  let dlng := radians (lng2 - lng1)
  let h := Real.sin (dlat / 2) ^ 2 +
    Real.cos lat1r * Real.cos lat2r * Real.sin (dlng / 2) ^ 2
  6371 * (2 * pyAtan2 (Real.sqrt h) (Real.sqrt (1 - h)))

/-- Python `round(x, 4)` on coordinates for the cache key (ties-to-even
deviations are immaterial: only determinism of the key matters). -/
noncomputable def round4 (x : ℝ) : ℝ := (⌊x * 10000 + 1 / 2⌋ : ℤ) / 10000

/-- The data hashed by `TravelTimeCache._generate_cache_key`
(travel_time.py lines 77-94): rounded coordinates, mode and the
hour-bucketed departure time.  The `md5` digest is modelled as the
identity on this tuple (a collision-free abstraction). -/
noncomputable def cacheKey (req : TravelTimeRequest) :
    ℝ × ℝ × ℝ × ℝ × String × Option ℤ :=
  (round4 req.from_lat, round4 req.from_lng, round4 req.to_lat, round4 req.to_lng,
    req.mode, req.departure_time.map (fun t => ⌊t⌋))

/-- The in-process cache map: key, stored result, expiry time.  The
Redis tier is absent (`REDIS_AVAILABLE = False`); the hit/miss/error
counters are not modelled.  One entry per key, insertion-ordered, like a
Python dict. -/
def CacheState : Type :=
  List ((ℝ × ℝ × ℝ × ℝ × String × Option ℤ) × TravelTimeResult × ℚ)

noncomputable instance : DecidableEq (ℝ × ℝ × ℝ × ℝ × String × Option ℤ) :=
  Classical.decEq _

/-- Association-list lookup for the cache dict. -/
noncomputable def cacheLookup (k : ℝ × ℝ × ℝ × ℝ × String × Option ℤ) :
    CacheState → Option (TravelTimeResult × ℚ)
  | [] => none
  | (k2, v) :: rest => if k2 = k then some v else cacheLookup k rest

/-- Python dict assignment: replace in place, else append. -/
noncomputable def cacheStore (k : ℝ × ℝ × ℝ × ℝ × String × Option ℤ)
    (v : TravelTimeResult × ℚ) : CacheState → CacheState
  | [] => [(k, v)]
  | (k2, v2) :: rest =>
    if k2 = k then (k, v) :: rest else (k2, v2) :: cacheStore k v rest

/-- Python `del` on the dict. -/
noncomputable def cacheErase (k : ℝ × ℝ × ℝ × ℝ × String × Option ℤ) :
    CacheState → CacheState
  | [] => []
  | (k2, v) :: rest => if k2 = k then rest else (k2, v) :: cacheErase k rest

open Classical in
/-- `TravelTimeCache.get` on the local tier (travel_time.py lines
96-129): a live entry is returned with `cached = True` (mutating the
stored result object), an expired entry is deleted. -/
noncomputable def cacheGet (now : ℚ) (st : CacheState) (req : TravelTimeRequest) :
    Option TravelTimeResult × CacheState :=
  match cacheLookup (cacheKey req) st with
  | none => (none, st)
  | some (r, expiry) =>
    if now < expiry then
      (some { r with cached := true },
        cacheStore (cacheKey req) ({ r with cached := true }, expiry) st)
    else (none, cacheErase (cacheKey req) st)

open Classical in
/-- `TravelTimeCache.set` on the local tier (travel_time.py lines
131-161): store with expiry `now + ttl`, then prune expired entries when
the map exceeds 1000 entries. -/
noncomputable def cacheSet (ttl : ℚ) (now : ℚ) (st : CacheState)
    (req : TravelTimeRequest) (r : TravelTimeResult) : CacheState :=
  if 1000 < (cacheStore (cacheKey req) (r, now + ttl) st).length then
    (cacheStore (cacheKey req) (r, now + ttl) st).filter (fun e => decide (now < e.2.2))
  else cacheStore (cacheKey req) (r, now + ttl) st

/-- `BaseTravelTimeProvider._fallback_calculation` (travel_time.py lines
232-254): haversine distance over a per-mode speed, tagged
`{name}_fallback`. -/
noncomputable def fallback_calculation (provider_name : String)
    (req : TravelTimeRequest) : TravelTimeResult :=
  let distance_km := tt_haversine req.from_lat req.from_lng req.to_lat req.to_lng
  let speed_kmh : ℝ :=
    if req.mode == "driving" then 40
    else if req.mode == "walking" then 5
    else if req.mode == "cycling" then 15
    else 40
  { duration_seconds := pyInt (distance_km / speed_kmh * 3600),
    distance_meters := distance_km * 1000,
    mode := req.mode,
    provider := provider_name ++ "_fallback",
    cached := false,
    calculated_at := none }

/-- `BaseTravelTimeProvider.get_travel_time` (travel_time.py lines
201-226), parametrized by the subclass hook `_calculate_travel_time`
(`calcFn`, `none` modelling a raised exception) and the call time `now`.
Returns the result and the new cache state. -/
noncomputable def provider_get_travel_time
    (calcFn : TravelTimeRequest → Option TravelTimeResult)
    (provider_name : String) (ttl now : ℚ) (st : CacheState)
    (req : TravelTimeRequest) : TravelTimeResult × CacheState :=
  match cacheGet now st req with
  | (some r, st2) => (r, st2)
  | (none, st2) =>
    match calcFn req with
    | some r0 =>
      ({ r0 with calculated_at := some now },
        cacheSet ttl now st2 req { r0 with calculated_at := some now })
    | none => (fallback_calculation provider_name req, st2)

/-- `MockTravelTimeProvider._calculate_travel_time` (travel_time.py lines
294-332); `randMultiplier` models the `random.uniform` realism factor in
`[0.9, 1.1]`.  The delay factor is only applied for driving (as in the
source, where the cycling factor is computed but never multiplied in). -/
noncomputable def mock_calculate (avg_speed_kmh randMultiplier : ℝ)
    (req : TravelTimeRequest) : Option TravelTimeResult :=
  let distance_km := tt_haversine req.from_lat req.from_lng req.to_lat req.to_lng
  let speed_kmh : ℝ :=
    if req.mode == "walking" then 5
    else if req.mode == "cycling" then 15
    else avg_speed_kmh
  let base := distance_km / speed_kmh * 3600
  let withDelay := if req.mode == "driving" then base * 1.3 + distance_km * 30 else base
  some { duration_seconds := pyInt (withDelay * randMultiplier),
         distance_meters := distance_km * 1000,
         mode := req.mode,
         provider := "mock",
         cached := false,
         calculated_at := none }

/-- `needle` starts `hay` (character lists). -/
def charsStart : List Char → List Char → Bool
  | [], _ => true
  | _ :: _, [] => false
  | c :: cs, d :: ds => c == d && charsStart cs ds

/-- Substring test on character lists. -/
def charsContain (needle : List Char) : List Char → Bool
  | [] => charsStart needle []
  | d :: ds => charsStart needle (d :: ds) || charsContain needle ds

/-- Python `needle in hay` on strings. -/
def strContains (hay needle : String) : Bool := charsContain needle.data hay.data

/-- `TravelTimeManager.get_travel_time` (travel_time.py lines 550-586).
A provider call is abstracted to `TravelTimeRequest → Except Unit
TravelTimeResult` (`error` modelling a raised exception); `mock` is the
fresh `MockTravelTimeProvider` built on the final-provider exception path
and on the unreachable end of the loop.  A non-fallback result is
returned immediately; a fallback-tagged result advances the chain except
at the last provider. -/
def manager_get_travel_time (mock : TravelTimeRequest → TravelTimeResult) :
    List (TravelTimeRequest → Except Unit TravelTimeResult) →
    TravelTimeRequest → Except Unit TravelTimeResult
  | [], req => Except.ok (mock req)
  | [p], req =>
    match p req with
    | Except.ok r => Except.ok r
    | Except.error _ => Except.ok (mock req)
  | p :: q :: rest, req =>
    match p req with
    | Except.ok r =>
      if strContains r.provider "fallback" then manager_get_travel_time mock (q :: rest) req
      else Except.ok r
    | Except.error _ => manager_get_travel_time mock (q :: rest) req

/-- The result the chain contract designates: the first result not tagged
as a fallback, else the last result. -/
def pickChain : List TravelTimeResult → Option TravelTimeResult
  | [] => none
  | [r] => some r
  | r :: r2 :: rest =>
    if strContains r.provider "fallback" then pickChain (r2 :: rest) else some r

/-! ### Claim C4: the cluster-count formula -/

/-- C4 (counterexample): with `max_batch_size = 8` and 9 remaining orders
the code requests `max(1, 9 // (8 // 2)) = 2` clusters, while
`ceil(9 / (8/2)) = 3`; the claimed formula does not match the code. -/
theorem C4_counterexample :
    nClusters 8 9 = some 2 ∧ (⌈(9 : ℚ) / ((8 : ℚ) / 2)⌉₊ : ℕ) ≠ 2 := by
  constructor
  · rfl
  · have h4 : ((8 : ℚ) / 2) = 4 := by norm_num
    rw [h4]
    have : (⌈(9 : ℚ) / 4⌉₊ : ℕ) = 3 := by
      rw [Nat.ceil_eq_iff (by norm_num)]
      norm_num
    omega

/-- C4 (amended): for a non-empty remaining set, `create_batches` requests
1 cluster when the order count is at most `max_batch_size`, and otherwise
(for `max_batch_size ≥ 2`) exactly `count // (max_batch_size // 2)`
clusters — floor division, with no ceiling. -/
theorem C4_cluster_count_amended (maxB count : Nat) :
    (count ≤ maxB → nClusters maxB count = some 1) ∧
    (2 ≤ maxB → maxB < count → nClusters maxB count = some (count / (maxB / 2))) := by
  constructor
  · intro hle
    simp [nClusters, hle]
  · intro h2 hlt
    have hnotle : ¬ count ≤ maxB := by omega
    have hhalf : maxB / 2 ≠ 0 := by omega
    have hone : 1 ≤ count / (maxB / 2) := by
      rw [Nat.le_div_iff_mul_le (by omega)]
      have := Nat.div_le_self maxB 2
      omega
    simp [nClusters, hnotle, hhalf, Nat.max_eq_right hone]

/-- C4 witness: the amended formula evaluated at the counterexample
input. -/
theorem C4_cluster_count_amended_witness : nClusters 8 9 = some (9 / 4) :=
  (C4_cluster_count_amended 8 9).2 (by decide) (by decide)

/-! ### Claim C6: the provider chain -/

/-- Every path of the chain driver produces a result (all provider
exceptions are caught; the terminal paths fall back to a fresh mock
provider). -/
theorem manager_total (mock : TravelTimeRequest → TravelTimeResult)
    (providers : List (TravelTimeRequest → Except Unit TravelTimeResult))
    (req : TravelTimeRequest) :
    ∃ r, manager_get_travel_time mock providers req = Except.ok r := by
  induction providers with
  | nil => exact ⟨mock req, rfl⟩
  | cons p ps ih =>
    cases ps with
    | nil =>
      cases hp : p req with
      | ok r => exact ⟨r, by simp [manager_get_travel_time, hp]⟩
      | error e => exact ⟨mock req, by simp [manager_get_travel_time, hp]⟩
    | cons q rest =>
      cases hp : p req with
      | ok r =>
        by_cases hf : strContains r.provider "fallback" = true
        · obtain ⟨r2, hr2⟩ := ih
          exact ⟨r2, by simp [manager_get_travel_time, hp, hf, hr2]⟩
        · exact ⟨r, by simp [manager_get_travel_time, hp, hf]⟩
      | error e =>
        obtain ⟨r2, hr2⟩ := ih
        exact ⟨r2, by simp [manager_get_travel_time, hp, hr2]⟩

/-- When every provider returns normally, the chain driver returns the
first non-fallback-tagged result, else the last result. -/
theorem manager_chain_order (mock : TravelTimeRequest → TravelTimeResult)
    (providers : List (TravelTimeRequest → Except Unit TravelTimeResult))
    (req : TravelTimeRequest) :
    ∀ results : List TravelTimeResult, results ≠ [] →
      List.Forall₂ (fun p r => p req = Except.ok r) providers results →
      ∃ r, pickChain results = some r ∧
        manager_get_travel_time mock providers req = Except.ok r := by
  induction providers with
  | nil =>
    intro results hne hall
    cases hall
    exact absurd rfl hne
  | cons p ps ih =>
    intro results hne hall
    cases hall with
    | cons hp htail =>
      rename_i r rs
      cases ps with
      | nil =>
        cases htail
        exact ⟨r, rfl, by simp [manager_get_travel_time, hp]⟩
      | cons q rest =>
        cases htail with
        | cons hq htail2 =>
          rename_i r2 rs2
          by_cases hf : strContains r.provider "fallback" = true
          · obtain ⟨rout, hpick, hrun⟩ :=
              ih (r2 :: rs2) (by simp) (List.Forall₂.cons hq htail2)
            refine ⟨rout, ?_, ?_⟩
            · simpa [pickChain, hf] using hpick
            · simpa [manager_get_travel_time, hp, hf] using hrun
          · exact ⟨r, by simp [pickChain, hf], by simp [manager_get_travel_time, hp, hf]⟩

/-- C6: `TravelTimeManager.get_travel_time` never lets an exception
escape, and — when every provider returns a result — it returns the first
result (in chain order) not tagged as a fallback, or the last provider's
result when all are fallback-tagged. -/
theorem C6_provider_chain (mock : TravelTimeRequest → TravelTimeResult)
    (providers : List (TravelTimeRequest → Except Unit TravelTimeResult))
    (req : TravelTimeRequest) :
    (∃ r, manager_get_travel_time mock providers req = Except.ok r) ∧
    (∀ results : List TravelTimeResult, results ≠ [] →
      List.Forall₂ (fun p r => p req = Except.ok r) providers results →
      ∃ r, pickChain results = some r ∧
        manager_get_travel_time mock providers req = Except.ok r) :=
  ⟨manager_total mock providers req, manager_chain_order mock providers req⟩

/-- A concrete travel-time request shared by the witnesses below. -/
def reqExample : TravelTimeRequest :=
  { from_lat := 0, from_lng := 0, to_lat := 0, to_lng := 0,
    mode := "driving", departure_time := none }

/-- A fallback-tagged result for the chain witness. -/
def resFallbackExample : TravelTimeResult :=
  { duration_seconds := 100, distance_meters := 500, mode := "driving",
    provider := "mock_fallback", cached := false, calculated_at := none }

/-- A non-fallback result for the chain witness. -/
def resOkExample : TravelTimeResult :=
  { duration_seconds := 200, distance_meters := 800, mode := "driving",
    provider := "osrm", cached := false, calculated_at := none }

/-- C6 witness: a two-provider chain whose first provider reports its own
fallback and whose second succeeds; the chain returns the second
result. -/
theorem C6_provider_chain_witness :
    ∃ r, pickChain [resFallbackExample, resOkExample] = some r ∧
      manager_get_travel_time (fun _ => resOkExample)
        [fun _ => Except.ok resFallbackExample, fun _ => Except.ok resOkExample]
        reqExample = Except.ok r :=
  (C6_provider_chain (fun _ => resOkExample)
      [fun _ => Except.ok resFallbackExample, fun _ => Except.ok resOkExample]
      reqExample).2
    [resFallbackExample, resOkExample] (by simp)
    (List.Forall₂.cons rfl (List.Forall₂.cons rfl List.Forall₂.nil))

/-! ### Cache helper lemmas -/

/-- Storing under a fresh key makes it found. -/
theorem cacheLookup_store_self (k : ℝ × ℝ × ℝ × ℝ × String × Option ℤ)
    (v : TravelTimeResult × ℚ) (st : CacheState)
    (h : cacheLookup k st = none) :
    cacheLookup k (cacheStore k v st) = some v := by
  induction st with
  | nil => simp [cacheStore, cacheLookup]
  | cons e rest ih =>
    by_cases hk : e.1 = k
    · rw [cacheLookup] at h
      rw [if_pos hk] at h
      exact absurd h (by simp)
    · rw [cacheLookup] at h
      rw [if_neg hk] at h
      rw [cacheStore]
      rw [if_neg hk]
      rw [cacheLookup, if_neg hk]
      exact ih h

/-- Filtering keeps a looked-up entry that satisfies the predicate. -/
theorem cacheLookup_filter (k : ℝ × ℝ × ℝ × ℝ × String × Option ℤ)
    (v : TravelTimeResult × ℚ)
    (p : (ℝ × ℝ × ℝ × ℝ × String × Option ℤ) × TravelTimeResult × ℚ → Bool)
    (st : CacheState) (h : cacheLookup k st = some v) (hp : p (k, v) = true) :
    cacheLookup k (st.filter p) = some v := by
  induction st with
  | nil => simp [cacheLookup] at h
  | cons e rest ih =>
    by_cases hk : e.1 = k
    · rw [cacheLookup, if_pos hk] at h
      have he : e = (k, v) := by
        cases e with
        | mk k2 v2 => cases h; cases hk; rfl
      rw [List.filter]
      rw [he, hp]
      simp [cacheLookup]
    · rw [cacheLookup, if_neg hk] at h
      rw [List.filter]
      cases hpe : p e with
      | true => rw [cacheLookup, if_neg hk]; exact ih h
      | false => exact ih h

/-- A successful lookup means the key occurs in the map. -/
theorem cacheLookup_mem_keys (k : ℝ × ℝ × ℝ × ℝ × String × Option ℤ)
    (st : CacheState) (v : TravelTimeResult × ℚ)
    (h : cacheLookup k st = some v) : k ∈ st.map (fun e => e.1) := by
  induction st with
  | nil => simp [cacheLookup] at h
  | cons e rest ih =>
    rw [cacheLookup] at h
    by_cases hk : e.1 = k
    · rw [List.map_cons, hk]
      exact List.mem_cons_self _ _
    · rw [if_neg hk] at h
      exact List.mem_cons.mpr (Or.inr (ih h))

/-- Erasing a key removes it entirely when keys are unique. -/
theorem cacheLookup_erase_self (k : ℝ × ℝ × ℝ × ℝ × String × Option ℤ)
    (st : CacheState) (h : (st.map (fun e => e.1)).Nodup) :
    cacheLookup k (cacheErase k st) = none := by
  induction st with
  | nil => simp [cacheErase, cacheLookup]
  | cons e rest ih =>
    rw [List.map_cons, List.nodup_cons] at h
    by_cases hk : e.1 = k
    · rw [cacheErase, if_pos hk]
      cases hl : cacheLookup k rest with
      | none => rfl
      | some v =>
        exact absurd (by rw [hk]; exact cacheLookup_mem_keys k rest v hl) h.1
    · rw [cacheErase, if_neg hk, cacheLookup, if_neg hk]
      exact ih h.2

/-- Erasing one key leaves lookups of other keys unchanged. -/
theorem cacheLookup_erase_other (k k2 : ℝ × ℝ × ℝ × ℝ × String × Option ℤ)
    (st : CacheState) (h : k ≠ k2) :
    cacheLookup k (cacheErase k2 st) = cacheLookup k st := by
  induction st with
  | nil => simp [cacheErase]
  | cons e rest ih =>
    by_cases he : e.1 = k2
    · rw [cacheErase, if_pos he, cacheLookup, if_neg (by rw [he]; exact fun hh => h hh.symm)]
    · rw [cacheErase, if_neg he, cacheLookup, cacheLookup]
      by_cases hek : e.1 = k
      · rw [if_pos hek, if_pos hek]
      · rw [if_neg hek, if_neg hek]
        exact ih

/-! ### Claim C8: cache idempotence -/

/-- C8: starting from a cache with no entry for the request, when the
provider's internal calculation returns normally (true of every provider
class in the module), a second identical call within the TTL window is
served from the cache: `cached = true` with the same duration and
distance as the first call's result. -/
theorem C8_cache_idempotent
    (calcFn : TravelTimeRequest → Option TravelTimeResult) (name : String)
    (ttl t1 t2 : ℚ) (st : CacheState) (req : TravelTimeRequest)
    (hfresh : cacheLookup (cacheKey req) st = none)
    (hcalc : (calcFn req).isSome = true)
    (h1 : t1 ≤ t2) (h2 : t2 < t1 + ttl) :
    ((provider_get_travel_time calcFn name ttl t2
        (provider_get_travel_time calcFn name ttl t1 st req).2 req).1.cached = true) ∧
    ((provider_get_travel_time calcFn name ttl t2
        (provider_get_travel_time calcFn name ttl t1 st req).2 req).1.duration_seconds =
      (provider_get_travel_time calcFn name ttl t1 st req).1.duration_seconds) ∧
    ((provider_get_travel_time calcFn name ttl t2
        (provider_get_travel_time calcFn name ttl t1 st req).2 req).1.distance_meters =
      (provider_get_travel_time calcFn name ttl t1 st req).1.distance_meters) := by
  obtain ⟨r0, hr0⟩ := Option.isSome_iff_exists.mp hcalc
  have hget1 : cacheGet t1 st req = (none, st) := by
    unfold cacheGet
    rw [hfresh]
  have hfirst : provider_get_travel_time calcFn name ttl t1 st req =
      ({ r0 with calculated_at := some t1 },
        cacheSet ttl t1 st req { r0 with calculated_at := some t1 }) := by
    unfold provider_get_travel_time
    rw [hget1, hr0]
  have httl : t1 < t1 + ttl := by linarith
  have hstored : cacheLookup (cacheKey req)
      (cacheSet ttl t1 st req { r0 with calculated_at := some t1 }) =
      some ({ r0 with calculated_at := some t1 }, t1 + ttl) := by
    unfold cacheSet
    have hbase := cacheLookup_store_self (cacheKey req)
      ({ r0 with calculated_at := some t1 }, t1 + ttl) st hfresh
    split
    · exact cacheLookup_filter _ _ _ _ hbase (by simp [httl])
    · exact hbase
  have hget2 : (cacheGet t2
      (cacheSet ttl t1 st req { r0 with calculated_at := some t1 }) req).1 =
      some { r0 with calculated_at := some t1, cached := true } := by
    unfold cacheGet
    rw [hstored]
    simp [h2]
  have hsecond : (provider_get_travel_time calcFn name ttl t2
      (provider_get_travel_time calcFn name ttl t1 st req).2 req).1 =
      { r0 with calculated_at := some t1, cached := true } := by
    rw [hfirst]
    unfold provider_get_travel_time
    have : cacheGet t2 (cacheSet ttl t1 st req { r0 with calculated_at := some t1 }) req =
        (some { r0 with calculated_at := some t1, cached := true },
          (cacheGet t2 (cacheSet ttl t1 st req { r0 with calculated_at := some t1 }) req).2) := by
      rw [← hget2]
    rw [this]
  rw [hsecond, hfirst]
  exact ⟨rfl, rfl, rfl⟩

/-- C8 witness: the mock provider's calculation at the example request,
first call at time 0, second at time 1, TTL 86400 seconds, empty initial
cache. -/
theorem C8_cache_idempotent_witness :
    ((provider_get_travel_time (mock_calculate 40 1) "mock" 86400 1
        (provider_get_travel_time (mock_calculate 40 1) "mock" 86400 0 [] reqExample).2
        reqExample).1.cached = true) ∧
    ((provider_get_travel_time (mock_calculate 40 1) "mock" 86400 1
        (provider_get_travel_time (mock_calculate 40 1) "mock" 86400 0 [] reqExample).2
        reqExample).1.duration_seconds =
      (provider_get_travel_time (mock_calculate 40 1) "mock" 86400 0 [] reqExample).1.duration_seconds) ∧
    ((provider_get_travel_time (mock_calculate 40 1) "mock" 86400 1
        (provider_get_travel_time (mock_calculate 40 1) "mock" 86400 0 [] reqExample).2
        reqExample).1.distance_meters =
      (provider_get_travel_time (mock_calculate 40 1) "mock" 86400 0 [] reqExample).1.distance_meters) :=
  C8_cache_idempotent (mock_calculate 40 1) "mock" 86400 0 1 [] reqExample
    rfl rfl (by norm_num) (by norm_num)

/-! ### Claim C10: failed calculation writes nothing to the cache -/

/-- A provider whose internal calculation always raises (e.g. the
`NotImplementedError` of the abstract base class). -/
def calcNone : TravelTimeRequest → Option TravelTimeResult := fun _ => none

/-- A stored result used to build a stale cache entry. -/
def resStaleExample : TravelTimeResult :=
  { duration_seconds := 7, distance_meters := 9, mode := "driving",
    provider := "mock", cached := false, calculated_at := none }

/-- A cache holding one entry for `reqExample`, already expired at time
1 (expiry 0). -/
noncomputable def stStaleExample : CacheState :=
  [(cacheKey reqExample, (resStaleExample, 0))]

/-- Looking up `reqExample` at time 1 in the stale cache deletes the
expired entry. -/
theorem cacheGet_stale : cacheGet 1 stStaleExample reqExample = (none, []) := by
  unfold cacheGet stStaleExample
  rw [cacheLookup, if_pos rfl]
  have h0 : ¬ (1 : ℚ) < 0 := by norm_num
  simp [h0, cacheErase]

/-- C10 (counterexample): with an expired entry for the request present,
the failing-calculation call does change the cache state — `get` deletes
the expired entry — so "the cache state after the call equals the cache
state before it" is false as stated, although the returned result is the
haversine fallback. -/
theorem C10_counterexample :
    (provider_get_travel_time calcNone "mock" 86400 1 stStaleExample reqExample).2 ≠
      stStaleExample ∧
    (provider_get_travel_time calcNone "mock" 86400 1 stStaleExample reqExample).1 =
      fallback_calculation "mock" reqExample := by
  have hrun : provider_get_travel_time calcNone "mock" 86400 1 stStaleExample reqExample =
      (fallback_calculation "mock" reqExample, []) := by
    unfold provider_get_travel_time
    rw [cacheGet_stale]
    rfl
  rw [hrun]
  exact ⟨by simp [stStaleExample], rfl⟩

/-- C10 (amended): if the internal calculation raises and the cache has
no live entry for the request, `get_travel_time` returns the haversine
fallback result and writes nothing: afterwards the request's key is
absent from the cache and every other key is untouched (the only possible
change being the deletion of an already-expired entry for the key). -/
theorem C10_fallback_no_write_amended
    (calcFn : TravelTimeRequest → Option TravelTimeResult) (name : String)
    (ttl now : ℚ) (st : CacheState) (req : TravelTimeRequest)
    (hnodup : (st.map (fun e => e.1)).Nodup)
    (hmiss : (cacheGet now st req).1 = none)
    (hcalc : calcFn req = none) :
    (provider_get_travel_time calcFn name ttl now st req =
      (fallback_calculation name req, (cacheGet now st req).2)) ∧
    cacheLookup (cacheKey req) (cacheGet now st req).2 = none ∧
    (∀ k, k ≠ cacheKey req →
      cacheLookup k (cacheGet now st req).2 = cacheLookup k st) := by
  have hpair : cacheGet now st req = (none, (cacheGet now st req).2) := by
    rw [← hmiss]
  refine ⟨?_, ?_, ?_⟩
  · unfold provider_get_travel_time
    rw [hpair, hcalc]
  · rcases hlk : cacheLookup (cacheKey req) st with _ | ⟨r, exp⟩
    · have : cacheGet now st req = (none, st) := by
        unfold cacheGet
        rw [hlk]
      rw [this, hlk]
    · by_cases hexp : now < exp
      · exfalso
        have : cacheGet now st req =
            (some { r with cached := true },
              cacheStore (cacheKey req) ({ r with cached := true }, exp) st) := by
          unfold cacheGet
          rw [hlk]
          simp [hexp]
        rw [this] at hmiss
        simp at hmiss
      · have : cacheGet now st req = (none, cacheErase (cacheKey req) st) := by
          unfold cacheGet
          rw [hlk]
          simp [hexp]
        rw [this]
        exact cacheLookup_erase_self _ _ hnodup
  · intro k hk
    rcases hlk : cacheLookup (cacheKey req) st with _ | ⟨r, exp⟩
    · have : cacheGet now st req = (none, st) := by
        unfold cacheGet
        rw [hlk]
      rw [this]
    · by_cases hexp : now < exp
      · exfalso
        have : cacheGet now st req =
            (some { r with cached := true },
              cacheStore (cacheKey req) ({ r with cached := true }, exp) st) := by
          unfold cacheGet
          rw [hlk]
          simp [hexp]
        rw [this] at hmiss
        simp at hmiss
      · have : cacheGet now st req = (none, cacheErase (cacheKey req) st) := by
          unfold cacheGet
          rw [hlk]
          simp [hexp]
        rw [this]
        exact cacheLookup_erase_other _ _ _ hk

/-- C10 witness: the amended statement evaluated on the stale single-entry
cache with the always-raising calculation. -/
theorem C10_fallback_no_write_amended_witness :
    provider_get_travel_time calcNone "mock" 86400 1 stStaleExample reqExample =
      (fallback_calculation "mock" reqExample,
        (cacheGet 1 stStaleExample reqExample).2) :=
  (C10_fallback_no_write_amended calcNone "mock" 86400 1 stStaleExample reqExample
    (by simp [stStaleExample]) (by rw [cacheGet_stale]) rfl).1

/-! ### Claim C2: the batch-size invariant -/

/-- Every chunk produced by the splitting loop has at most `m` orders. -/
theorem chunksAux_mem_le (m : Nat) :
    ∀ (fuel : Nat) (l : List Order), ∀ c ∈ chunksAux m fuel l, c.length ≤ m := by
  intro fuel
  induction fuel with
  | zero => intro l c hc; simp [chunksAux] at hc
  | succ n ih =>
    intro l c hc
    cases l with
    | nil => simp [chunksAux] at hc
    | cons x xs =>
      rw [chunksAux] at hc
      rcases List.mem_cons.mp hc with rfl | hmem
      · simp [List.length_take]
      · exact ih _ c hmem
      simp

/-- For a positive chunk size every chunk is non-empty. -/
theorem chunksAux_mem_ne (m : Nat) (hm : 1 ≤ m) :
    ∀ (fuel : Nat) (l : List Order), ∀ c ∈ chunksAux m fuel l, c ≠ [] := by
  intro fuel
  induction fuel with
  | zero => intro l c hc; simp [chunksAux] at hc
  | succ n ih =>
    intro l c hc
    cases l with
    | nil => simp [chunksAux] at hc
    | cons x xs =>
      rw [chunksAux] at hc
      rcases List.mem_cons.mp hc with rfl | hmem
      · cases m with
        | zero => omega
        | succ m2 => simp [List.take]
      · exact ih _ c hmem
      simp

/-- `balanceOne` only emits batches within the size bound. -/
theorem balanceOne_le (m : Nat) (c : List Order) (out : List (List Order))
    (h : balanceOne m c = some out) : ∀ d ∈ out, d.length ≤ m := by
  unfold balanceOne at h
  split at h
  · cases h
    intro d hd
    rcases List.mem_singleton.mp hd with rfl
    assumption
  · split at h
    · cases h
    · cases h
      exact chunksAux_mem_le m c.length c

/-- `balanceOne` of a non-empty cluster emits non-empty batches. -/
theorem balanceOne_ne (m : Nat) (c : List Order) (out : List (List Order))
    (h : balanceOne m c = some out) (hc : c ≠ []) : ∀ d ∈ out, d ≠ [] := by
  unfold balanceOne at h
  split at h
  · cases h
    intro d hd
    rcases List.mem_singleton.mp hd with rfl
    exact hc
  · split at h
    · cases h
    · cases h
      rename_i hm
      exact chunksAux_mem_ne m (by omega) c.length c

/-- `balanceOne` of a non-empty cluster emits at least one batch. -/
theorem balanceOne_nonnil (m : Nat) (c : List Order) (out : List (List Order))
    (h : balanceOne m c = some out) (hc : c ≠ []) : out ≠ [] := by
  unfold balanceOne at h
  split at h
  · cases h
    simp
  · split at h
    · cases h
    · cases h
      cases c with
      | nil => exact absurd rfl hc
      | cons x xs => simp [chunksAux]

/-- Every batch after balancing respects the size bound. -/
theorem balance_batches_le (m : Nat) :
    ∀ (cs : List (List Order)) (out : List (List Order)),
      balance_batches m cs = some out → ∀ c ∈ out, c.length ≤ m := by
  intro cs
  induction cs with
  | nil =>
    intro out h
    rw [balance_batches] at h
    cases h
    intro c hc
    simp at hc
  | cons c rest ih =>
    intro out h
    rw [balance_batches] at h
    rcases h1 : balanceOne m c with _ | a
    · rw [h1] at h; cases h
    · rcases h2 : balance_batches m rest with _ | b
      · rw [h1, h2] at h; cases h
      · rw [h1, h2] at h
        cases h
        intro d hd
        rcases List.mem_append.mp hd with hda | hdb
        · exact balanceOne_le m c a h1 d hda
        · exact ih b h2 d hdb

/-- Balancing non-empty clusters yields non-empty batches. -/
theorem balance_batches_ne (m : Nat) :
    ∀ (cs : List (List Order)) (out : List (List Order)),
      balance_batches m cs = some out → (∀ c ∈ cs, c ≠ []) →
      ∀ d ∈ out, d ≠ [] := by
  intro cs
  induction cs with
  | nil =>
    intro out h hcs
    rw [balance_batches] at h
    cases h
    intro d hd
    simp at hd
  | cons c rest ih =>
    intro out h hcs
    rw [balance_batches] at h
    rcases h1 : balanceOne m c with _ | a
    · rw [h1] at h; cases h
    · rcases h2 : balance_batches m rest with _ | b
      · rw [h1, h2] at h; cases h
      · rw [h1, h2] at h
        cases h
        intro d hd
        rcases List.mem_append.mp hd with hda | hdb
        · exact balanceOne_ne m c a h1 (hcs c (by simp)) d hda
        · exact ih b h2 (fun c2 hc2 => hcs c2 (by simp [hc2])) d hdb

/-- Balancing a non-empty list of non-empty clusters yields at least one
batch. -/
theorem balance_batches_nonnil (m : Nat) (c : List Order)
    (rest : List (List Order)) (out : List (List Order))
    (h : balance_batches m (c :: rest) = some out) (hc : c ≠ []) :
    out ≠ [] := by
  rw [balance_batches] at h
  rcases h1 : balanceOne m c with _ | a
  · rw [h1] at h; cases h
  · rcases h2 : balance_batches m rest with _ | b
    · rw [h1, h2] at h; cases h
    · rw [h1, h2] at h
      cases h
      have ha := balanceOne_nonnil m c a h1 hc
      intro hcon
      rcases List.append_eq_nil.mp hcon with ⟨ha2, _⟩
      exact ha ha2

/-- Merging preserves the size bound. -/
theorem merge_small_batches_le (m : Nat) :
    (bs : List (List Order)) → (∀ c ∈ bs, c.length ≤ m) →
    ∀ c ∈ merge_small_batches m bs, c.length ≤ m
  | [], _ => by simp [merge_small_batches]
  | [b], h => by simpa [merge_small_batches] using h
  | b1 :: b2 :: rest, h => by
    rw [merge_small_batches]
    split
    · rename_i hcond
      intro c hc
      rcases List.mem_cons.mp hc with rfl | hmem
      · rw [List.length_append]
        exact hcond.2.1
      · exact merge_small_batches_le m rest
          (fun d hd => h d (by simp [hd])) c hmem
    · intro c hc
      rcases List.mem_cons.mp hc with rfl | hmem
      · exact h c (by simp)
      · exact merge_small_batches_le m (b2 :: rest)
          (fun d hd => h d (by simp [List.mem_cons.mp hd])) c hmem
termination_by bs => bs.length

/-- Merging preserves non-emptiness of members. -/
theorem merge_small_batches_ne (m : Nat) :
    (bs : List (List Order)) → (∀ c ∈ bs, c ≠ []) →
    ∀ c ∈ merge_small_batches m bs, c ≠ []
  | [], _ => by simp [merge_small_batches]
  | [b], h => by simpa [merge_small_batches] using h
  | b1 :: b2 :: rest, h => by
    rw [merge_small_batches]
    split
    · intro c hc
      rcases List.mem_cons.mp hc with rfl | hmem
      · have := h b1 (by simp)
        intro hcon
        rcases List.append_eq_nil.mp hcon with ⟨hb1, _⟩
        exact this hb1
      · exact merge_small_batches_ne m rest
          (fun d hd => h d (by simp [hd])) c hmem
    · intro c hc
      rcases List.mem_cons.mp hc with rfl | hmem
      · exact h c (by simp)
      · exact merge_small_batches_ne m (b2 :: rest)
          (fun d hd => h d (by simp [List.mem_cons.mp hd])) c hmem
termination_by bs => bs.length

/-- Merging a non-empty batch list yields a non-empty batch list. -/
theorem merge_small_batches_nonnil (m : Nat) :
    (bs : List (List Order)) → bs ≠ [] → merge_small_batches m bs ≠ []
  | [], h => absurd rfl h
  | [b], _ => by simp [merge_small_batches]
  | b1 :: b2 :: rest, _ => by
    rw [merge_small_batches]
    split
    · simp
    · simp

/-- C2: every batch produced by `create_batches` has between 1 and
`max_batch_size` orders. -/
theorem C2_batch_size_bounds (cfg : BatchConfig) (sklearnAvailable : Bool)
    (oracle : List (ℝ × ℝ) → Nat → Option (List Nat))
    (orders : List Order) (current_time : ℚ) (dev : ℝ) (bs : List Batch)
    (h : create_batches cfg sklearnAvailable oracle orders current_time dev = some bs) :
    ∀ b ∈ bs, 1 ≤ b.orders.length ∧ b.orders.length ≤ cfg.max_batch_size := by
  unfold create_batches at h
  split at h
  · cases h
    intro b hb
    simp at hb
  · simp only [] at h
    split at h
    · cases h
      intro b hb
      simp at hb
    · split at h
      · cases h
      · rename_i n hn
        split at h
        · cases h
        · rename_i balanced hbal
          cases h
          intro b hb
          rw [List.mem_filterMap] at hb
          obtain ⟨p, hp, hpb⟩ := hb
          have hp2 := (List.of_mem_zip hp).2
          split at hpb
          · cases hpb
          · rename_i hne
            cases hpb
            constructor
            · have : p.2 ≠ [] := by
                intro hcon
                rw [hcon] at hne
                simp at hne
              cases hp2x : p.2 with
              | nil => exact absurd hp2x this
              | cons y ys => simp [hp2x]
            · exact merge_small_batches_le cfg.max_batch_size balanced
                (balance_batches_le cfg.max_batch_size _ balanced hbal) p.2 hp2

/-- C2 witness: the empty order list produces the empty batch list, for
which the bound holds vacuously. -/
theorem C2_batch_size_bounds_witness :
    create_batches ⟨8, 15⟩ true (fun _ _ => none) [] 0 5 = some [] ∧
    ∀ b ∈ ([] : List Batch), 1 ≤ b.orders.length ∧ b.orders.length ≤ 8 :=
  ⟨rfl, C2_batch_size_bounds ⟨8, 15⟩ true (fun _ _ => none) [] 0 5 [] rfl⟩

/-! ### Claims C3 and C7: exception freedom and corridor fallback -/

/-- The haversine distance from a point to itself is zero. -/
theorem haversine_self (lat lng : ℝ) : haversine lat lng lat lng = 0 := by
  unfold haversine
  simp

/-- The haversine distance from the origin to the highway reference point
exceeds 5 km (it is more than 4842 km). -/
theorem haversine_origin_highway_gt :
    5 < haversine 0 0 45.38 (-75.70) := by
  unfold haversine radians
  simp only []
  have hπl := Real.pi_gt_d6
  have hπu := Real.pi_lt_d6
  set t : ℝ := (45.38 * Real.pi / 180 - 0 * Real.pi / 180) / 2 with ht
  have ht1 : 0.396 < t := by rw [ht]; linarith
  have ht2 : t < 0.3961 := by rw [ht]; linarith
  have hsin : 0.3804 < Real.sin t := by
    have hgt := Real.sin_gt_sub_cube (by linarith : 0 < t) (by linarith : t ≤ 1)
    have hcube : t ^ 3 < 0.3961 ^ 3 :=
      pow_lt_pow_left₀ ht2 (by linarith) (by norm_num)
    nlinarith
  have hsq : (0.3804 : ℝ) ^ 2 < Real.sin t ^ 2 :=
    pow_lt_pow_left₀ hsin (by norm_num) (by norm_num)
  have hlat2 : |45.38 * Real.pi / 180| ≤ 1 := by
    rw [abs_le]
    constructor <;> linarith
  have hcos2 : 0 < Real.cos (45.38 * Real.pi / 180) := Real.cos_pos_of_le_one hlat2
  have hcos1 : Real.cos (0 * Real.pi / 180) = 1 := by
    norm_num
  have hterm : 0 ≤ Real.cos (0 * Real.pi / 180) * Real.cos (45.38 * Real.pi / 180) *
      Real.sin ((-75.70 * Real.pi / 180 - 0 * Real.pi / 180) / 2) ^ 2 := by
    rw [hcos1]
    positivity
  set a : ℝ := Real.sin t ^ 2 +
    Real.cos (0 * Real.pi / 180) * Real.cos (45.38 * Real.pi / 180) *
      Real.sin ((-75.70 * Real.pi / 180 - 0 * Real.pi / 180) / 2) ^ 2 with ha
  have hage : (0.3804 : ℝ) ^ 2 < a := by rw [ha]; nlinarith
  have hsqrt : (0.38 : ℝ) < Real.sqrt a := by
    rw [Real.lt_sqrt (by norm_num)]
    nlinarith
  have harcsinconst : (0.38 : ℝ) < Real.arcsin 0.38 := by
    have hy : Real.sin (Real.arcsin 0.38) = 0.38 :=
      Real.sin_arcsin (by norm_num) (by norm_num)
    have hypos : 0 < Real.arcsin (0.38 : ℝ) := Real.arcsin_pos.mpr (by norm_num)
    have := Real.sin_lt hypos
    rw [hy] at this
    linarith
  have harc : (0.38 : ℝ) < Real.arcsin (Real.sqrt a) := by
    have hmono := Real.monotone_arcsin (le_of_lt hsqrt)
    linarith
  nlinarith

/-- An order pinned to the highway reference point. -/
noncomputable def orderHw1 : Order :=
  { id := "o1", pickup_lat := 45.38, pickup_lng := -75.70,
    delivery_lat := 45.38, delivery_lng := -75.70,
    created_at := 0, priority := 1, estimated_prep_time_minutes := 15 }

/-- A second order pinned to the highway reference point. -/
noncomputable def orderHw2 : Order :=
  { id := "o2", pickup_lat := 45.38, pickup_lng := -75.70,
    delivery_lat := 45.38, delivery_lng := -75.70,
    created_at := 0, priority := 1, estimated_prep_time_minutes := 15 }

/-- An order at the origin, far from the highway reference point. -/
noncomputable def orderFar1 : Order :=
  { id := "f1", pickup_lat := 0, pickup_lng := 0,
    delivery_lat := 0, delivery_lng := 0,
    created_at := 0, priority := 1, estimated_prep_time_minutes := 15 }

/-- A second order at the origin. -/
noncomputable def orderFar2 : Order :=
  { id := "f2", pickup_lat := 0, pickup_lng := 0,
    delivery_lat := 0, delivery_lng := 0,
    created_at := 0, priority := 1, estimated_prep_time_minutes := 15 }

/-- The configuration with `max_batch_size = 1` that triggers the
`ZeroDivisionError`. -/
def cfgTiny : BatchConfig := { max_batch_size := 1, batch_window_minutes := 15 }

/-- The time-window filter at reference time 0 keeps orders created at
time 0. -/
theorem time_filter_keeps (orders : List Order)
    (h : ∀ o ∈ orders, o.created_at = 0) :
    filter_orders_by_time_window 15 orders 0 = orders := by
  unfold filter_orders_by_time_window
  rw [List.filter_eq_self]
  intro o ho
  rw [h o ho]
  norm_num

/-- C3: the claim that `create_batches` never raises fails at
`max_batch_size = 1`: with two eligible orders at the highway reference
point the cluster-count division `2 // (1 // 2)` divides by zero and the
call raises (modelled as `none`). -/
theorem C3_create_batches_raises :
    create_batches cfgTiny true (fun _ _ => none) [orderHw1, orderHw2] 0 5 = none := by
  have helig : filter_orders_by_time_window 15 [orderHw1, orderHw2] 0 =
      [orderHw1, orderHw2] :=
    time_filter_keeps _ (by
      intro o ho
      rcases List.mem_cons.mp ho with rfl | ho2
      · rfl
      · rcases List.mem_singleton.mp ho2 with rfl
        rfl)
  have hfilt : filter_orders_by_highway_deviation [orderHw1, orderHw2] 5 =
      [orderHw1, orderHw2] := by
    unfold filter_orders_by_highway_deviation get_highway_reference_point
    rw [List.filter_eq_self]
    intro o ho
    apply decide_eq_true
    left
    have : o.pickup_lat = 45.38 ∧ o.pickup_lng = -75.70 := by
      rcases List.mem_cons.mp ho with rfl | ho2
      · exact ⟨rfl, rfl⟩
      · rcases List.mem_singleton.mp ho2 with rfl
        exact ⟨rfl, rfl⟩
    rw [this.1, this.2, haversine_self]
    norm_num
  unfold create_batches
  rw [if_neg (by simp)]
  simp only [cfgTiny]
  rw [helig]
  rw [if_neg (by simp)]
  rw [hfilt]
  rw [if_neg (by simp)]
  have hlen : (List.mergeSort [orderHw1, orderHw2] orderSortLE).length = 2 := by
    rw [List.length_mergeSort]
    rfl
  have hnone : nClusters 1 (List.mergeSort [orderHw1, orderHw2] orderSortLE).length =
      none := by
    rw [hlen]
    rfl
  rw [hnone]

/-- C7 (counterexample): with `max_batch_size = 1` and two eligible
orders at the origin — both farther than 5 km from the highway point —
`create_batches` raises (the same division by zero) instead of returning
a non-empty batch list; the claim fails without a bound on the
configuration. -/
theorem C7_counterexample :
    create_batches cfgTiny true (fun _ _ => none) [orderFar1, orderFar2] 0 5 = none := by
  have helig : filter_orders_by_time_window 15 [orderFar1, orderFar2] 0 =
      [orderFar1, orderFar2] :=
    time_filter_keeps _ (by
      intro o ho
      rcases List.mem_cons.mp ho with rfl | ho2
      · rfl
      · rcases List.mem_singleton.mp ho2 with rfl
        rfl)
  have hfar : ∀ o ∈ [orderFar1, orderFar2],
      ¬ (haversine o.pickup_lat o.pickup_lng 45.38 (-75.70) ≤ 5 ∨
         haversine o.delivery_lat o.delivery_lng 45.38 (-75.70) ≤ 5) := by
    intro o ho
    have hcoords : o.pickup_lat = 0 ∧ o.pickup_lng = 0 ∧
        o.delivery_lat = 0 ∧ o.delivery_lng = 0 := by
      rcases List.mem_cons.mp ho with rfl | ho2
      · exact ⟨rfl, rfl, rfl, rfl⟩
      · rcases List.mem_singleton.mp ho2 with rfl
        exact ⟨rfl, rfl, rfl, rfl⟩
    rw [hcoords.1, hcoords.2.1, hcoords.2.2.1, hcoords.2.2.2]
    rintro (hle | hle) <;> linarith [haversine_origin_highway_gt]
  have hfilt : filter_orders_by_highway_deviation [orderFar1, orderFar2] 5 = [] := by
    unfold filter_orders_by_highway_deviation get_highway_reference_point
    rw [List.filter_eq_nil_iff]
    intro o ho
    simp only [decide_eq_true_eq]
    exact hfar o ho
  unfold create_batches
  rw [if_neg (by simp)]
  simp only [cfgTiny]
  rw [helig]
  rw [if_neg (by simp)]
  rw [hfilt]
  rw [if_pos (show (List.isEmpty ([] : List Order)) = true from rfl)]
  have hlen : (List.mergeSort [orderFar1, orderFar2] orderSortLE).length = 2 := by
    rw [List.length_mergeSort]
    rfl
  have hnone : nClusters 1 (List.mergeSort [orderFar1, orderFar2] orderSortLE).length =
      none := by
    rw [hlen]
    rfl
  rw [hnone]

/-- Inserting into the grid dict never yields the empty dict. -/
theorem gridInsert_ne_nil (k : ℤ × ℤ) (o : Order)
    (acc : List ((ℤ × ℤ) × List Order)) : gridInsert k o acc ≠ [] := by
  cases acc with
  | nil => simp [gridInsert]
  | cons e rest =>
    cases e with
    | mk k2 os =>
      rw [gridInsert]
      split <;> simp

/-- Inserting preserves non-emptiness of all dict values. -/
theorem gridInsert_values_ne (k : ℤ × ℤ) (o : Order) :
    ∀ (acc : List ((ℤ × ℤ) × List Order)), (∀ e ∈ acc, e.2 ≠ []) →
      ∀ e ∈ gridInsert k o acc, e.2 ≠ [] := by
  intro acc
  induction acc with
  | nil =>
    intro _ e he
    rw [gridInsert] at he
    rcases List.mem_singleton.mp he with rfl
    simp
  | cons e2 rest ih =>
    intro hacc e he
    cases e2 with
    | mk k2 os =>
      rw [gridInsert] at he
      split at he
      · rcases List.mem_cons.mp he with rfl | hmem
        · have := hacc (k2, os) (by simp)
          simp
        · exact hacc e (by simp [hmem])
      · rcases List.mem_cons.mp he with rfl | hmem
        · exact hacc (k2, os) (by simp)
        · exact ih (fun d hd => hacc d (List.mem_cons.mpr (Or.inr hd))) e hmem

/-- Folding grid inserts over orders preserves value non-emptiness. -/
theorem gridFold_values_ne (cell : Order → ℤ × ℤ) :
    ∀ (os : List Order) (acc : List ((ℤ × ℤ) × List Order)),
      (∀ e ∈ acc, e.2 ≠ []) →
      ∀ e ∈ os.foldl (fun a o => gridInsert (cell o) o a) acc, e.2 ≠ [] := by
  intro os
  induction os with
  | nil => intro acc hacc e he; exact hacc e he
  | cons o os2 ih =>
    intro acc hacc e he
    rw [List.foldl_cons] at he
    exact ih (gridInsert (cell o) o acc)
      (gridInsert_values_ne (cell o) o acc hacc) e he

/-- Folding grid inserts from a non-empty dict stays non-empty. -/
theorem gridFold_ne (cell : Order → ℤ × ℤ) :
    ∀ (os : List Order) (acc : List ((ℤ × ℤ) × List Order)),
      acc ≠ [] → os.foldl (fun a o => gridInsert (cell o) o a) acc ≠ [] := by
  intro os
  induction os with
  | nil => intro acc hacc; exact hacc
  | cons o os2 ih =>
    intro acc _
    rw [List.foldl_cons]
    exact ih (gridInsert (cell o) o acc) (gridInsert_ne_nil (cell o) o acc)

/-- Every cluster produced by the grid fallback is non-empty. -/
theorem grid_clustering_members_ne (orders : List Order) (n : Nat) :
    ∀ c ∈ grid_clustering orders n, c ≠ [] := by
  unfold grid_clustering
  split
  · intro c hc
    rw [List.mem_map] at hc
    obtain ⟨o, _, rfl⟩ := hc
    simp
  · simp only []
    intro c hc
    rw [List.mem_map] at hc
    obtain ⟨e, he, rfl⟩ := hc
    exact gridFold_values_ne _ orders [] (by simp) e he

/-- The grid fallback of a non-empty order list is non-empty. -/
theorem grid_clustering_nonnil (orders : List Order) (n : Nat)
    (h : orders ≠ []) : grid_clustering orders n ≠ [] := by
  unfold grid_clustering
  split
  · simpa using h
  · simp only []
    intro hcon
    rw [List.map_eq_nil_iff] at hcon
    cases orders with
    | nil => exact h rfl
    | cons o os =>
      rw [List.foldl_cons] at hcon
      exact gridFold_ne _ os _ (gridInsert_ne_nil _ o []) hcon

/-- Every cluster produced by the clustering step is non-empty. -/
theorem kmeans_clustering_members_ne (avail : Bool)
    (oracle : List (ℝ × ℝ) → Nat → Option (List Nat))
    (orders : List Order) (n : Nat) :
    ∀ c ∈ kmeans_clustering avail oracle orders n, c ≠ [] := by
  unfold kmeans_clustering
  split
  · exact grid_clustering_members_ne orders n
  · split
    · intro c hc
      rw [List.mem_map] at hc
      obtain ⟨o, _, rfl⟩ := hc
      simp
    · split
      · exact grid_clustering_members_ne orders n
      · split
        · intro c hc
          rw [List.mem_filter] at hc
          intro hcon
          rw [hcon] at hc
          simp at hc
        · exact grid_clustering_members_ne orders n

/-- The clustering step of a non-empty order list yields at least one
cluster. -/
theorem kmeans_clustering_nonnil (avail : Bool)
    (oracle : List (ℝ × ℝ) → Nat → Option (List Nat))
    (orders : List Order) (n : Nat) (h : orders ≠ []) :
    kmeans_clustering avail oracle orders n ≠ [] := by
  unfold kmeans_clustering
  split
  · exact grid_clustering_nonnil orders n h
  · split
    · simpa using h
    · split
      · exact grid_clustering_nonnil orders n h
      · split
        · rename_i labels heq hcond
          cases orders with
          | nil => exact absurd rfl h
          | cons o os =>
            cases labels with
            | nil => simp at hcond
            | cons l ls =>
              have hln : l < n := by
                have hall := hcond.2
                rw [List.all_cons] at hall
                exact of_decide_eq_true (Bool.and_elim_left hall)
              apply List.ne_nil_of_mem
                (a := (((o :: os).zip (l :: ls)).filterMap
                  (fun p => if p.2 = l then some p.1 else none)))
              rw [List.mem_filter]
              constructor
              · exact List.mem_map_of_mem _ (List.mem_range.mpr hln)
              · rw [List.zip_cons_cons, List.filterMap_cons]
                simp
        · exact grid_clustering_nonnil orders n h

/-- The cluster-count computation succeeds whenever
`max_batch_size ≥ 2`. -/
theorem nClusters_some (m count : Nat) (hm : 2 ≤ m) :
    ∃ n, nClusters m count = some n := by
  unfold nClusters
  split
  · exact ⟨1, rfl⟩
  · rw [if_neg (by omega)]
    exact ⟨_, rfl⟩

/-- Balancing always succeeds for a positive batch-size bound. -/
theorem balance_batches_total (m : Nat) (hm : m ≠ 0) :
    ∀ cs : List (List Order), ∃ out, balance_batches m cs = some out := by
  intro cs
  induction cs with
  | nil => exact ⟨[], rfl⟩
  | cons c rest ih =>
    obtain ⟨out2, hout2⟩ := ih
    have h1 : ∃ a, balanceOne m c = some a := by
      unfold balanceOne
      by_cases hlen : c.length ≤ m
      · rw [if_pos hlen]
        exact ⟨[c], rfl⟩
      · rw [if_neg hlen, if_neg hm]
        exact ⟨_, rfl⟩
    obtain ⟨a, ha⟩ := h1
    refine ⟨a ++ out2, ?_⟩
    rw [balance_batches, ha, hout2]

/-- C7 (amended): for `max_batch_size ≥ 2`, a non-empty list of
time-window-eligible orders all of whose pickups and deliveries lie
farther than `maxDeviationKm` from the corridor point still yields a
non-empty batch list (via the unfiltered-orders fallback). -/
theorem C7_corridor_fallback_amended (cfg : BatchConfig) (avail : Bool)
    (oracle : List (ℝ × ℝ) → Nat → Option (List Nat))
    (orders : List Order) (t : ℚ) (dev : ℝ)
    (hmax : 2 ≤ cfg.max_batch_size)
    (hne : orders ≠ [])
    (htime : ∀ o ∈ orders, t - cfg.batch_window_minutes ≤ o.created_at)
    (hfar : ∀ o ∈ orders,
      ¬ (haversine o.pickup_lat o.pickup_lng 45.38 (-75.70) ≤ dev ∨
         haversine o.delivery_lat o.delivery_lng 45.38 (-75.70) ≤ dev)) :
    ∃ bs, create_batches cfg avail oracle orders t dev = some bs ∧ bs ≠ [] := by
  have hoe : orders.isEmpty = false := by
    cases orders with
    | nil => exact absurd rfl hne
    | cons a l => rfl
  have helig : filter_orders_by_time_window cfg.batch_window_minutes orders t =
      orders := by
    unfold filter_orders_by_time_window
    rw [List.filter_eq_self]
    intro o ho
    exact decide_eq_true (htime o ho)
  have hfilt : filter_orders_by_highway_deviation orders dev = [] := by
    unfold filter_orders_by_highway_deviation get_highway_reference_point
    rw [List.filter_eq_nil_iff]
    intro o ho
    simp only [decide_eq_true_eq]
    exact hfar o ho
  unfold create_batches
  simp only []
  rw [hoe]
  rw [if_neg (by simp)]
  rw [helig, hoe]
  rw [if_neg (by simp)]
  rw [hfilt]
  rw [if_pos (show (List.isEmpty ([] : List Order)) = true from rfl)]
  have hsne : orders.mergeSort orderSortLE ≠ [] := by
    intro hcon
    have : (orders.mergeSort orderSortLE).length = orders.length :=
      List.length_mergeSort ..
    rw [hcon] at this
    cases orders with
    | nil => exact hne rfl
    | cons a l => simp at this
  obtain ⟨n, hn⟩ := nClusters_some cfg.max_batch_size
    (orders.mergeSort orderSortLE).length hmax
  simp only [hn]
  set C := kmeans_clustering avail oracle (orders.mergeSort orderSortLE) n with hC
  have hCne : C ≠ [] := kmeans_clustering_nonnil avail oracle _ n hsne
  have hCmem : ∀ c ∈ C, c ≠ [] := kmeans_clustering_members_ne avail oracle _ n
  set V := C.filter (fun cl => validate_cluster_highway_deviation cl dev) with hV
  have hVCne : (if V.isEmpty = true then C else V) ≠ [] := by
    split
    · exact hCne
    · rename_i hVe
      intro hcon
      rw [hcon] at hVe
      simp at hVe
  have hVCmem : ∀ c ∈ (if V.isEmpty = true then C else V), c ≠ [] := by
    split
    · exact hCmem
    · intro c hc
      rw [hV, List.mem_filter] at hc
      exact hCmem c hc.1
  obtain ⟨balanced, hbal⟩ := balance_batches_total cfg.max_batch_size
    (by omega) (if V.isEmpty = true then C else V)
  simp only [hbal]
  have hbne : balanced ≠ [] := by
    cases hvc : (if V.isEmpty = true then C else V) with
    | nil => exact absurd hvc hVCne
    | cons c rest =>
      rw [hvc] at hbal
      exact balance_batches_nonnil cfg.max_batch_size c rest balanced hbal
        (hVCmem c (by rw [hvc]; simp))
  have hbmem : ∀ c ∈ balanced, c ≠ [] :=
    balance_batches_ne cfg.max_batch_size _ balanced hbal hVCmem
  set M := merge_small_batches cfg.max_batch_size balanced with hM
  have hMne : M ≠ [] := merge_small_batches_nonnil cfg.max_batch_size balanced hbne
  have hMmem : ∀ c ∈ M, c ≠ [] := merge_small_batches_ne cfg.max_batch_size balanced hbmem
  refine ⟨_, rfl, ?_⟩
  cases hMc : M with
  | nil => exact absurd hMc hMne
  | cons c0 rest =>
    apply List.ne_nil_of_mem (a :=
      { id := s!"batch_{(0 : Nat)}", orders := c0,
        center_lat := (calculate_cluster_center c0).1,
        center_lng := (calculate_cluster_center c0).2,
        created_at := t, estimated_duration_minutes := 0 })
    rw [List.mem_filterMap]
    refine ⟨(0, c0), ?_, ?_⟩
    · rw [List.length_cons, List.range_succ_eq_map, List.zip_cons_cons]
      exact List.mem_cons_self _ _
    · have hc0 : c0.isEmpty = false := by
        have := hMmem c0 (by rw [hMc]; simp)
        cases c0 with
        | nil => exact absurd rfl this
        | cons x xs => rfl
      rw [hc0]
      rw [if_neg (by simp)]

/-- C7 witness: a single eligible order at the origin with the default
configuration (`max_batch_size = 8`) produces a non-empty batch list. -/
theorem C7_corridor_fallback_amended_witness :
    ∃ bs, create_batches { max_batch_size := 8, batch_window_minutes := 15 }
      true (fun _ _ => none) [orderFar1] 0 5 = some bs ∧ bs ≠ [] :=
  C7_corridor_fallback_amended _ true (fun _ _ => none) [orderFar1] 0 5
    (by norm_num) (by simp)
    (by
      intro o ho
      rcases List.mem_singleton.mp ho with rfl
      show (0 : ℚ) - 15 ≤ 0
      norm_num)
    (by
      intro o ho
      rcases List.mem_singleton.mp ho with rfl
      show ¬ (haversine 0 0 45.38 (-75.70) ≤ 5 ∨ haversine 0 0 45.38 (-75.70) ≤ 5)
      rintro (hle | hle) <;> linarith [haversine_origin_highway_gt])

/-! ### Claim C9: the worked haversine example -/

/-- Numeric cosine bounds on the latitude band of the example points
(about 45.42 degrees, 0.7928 radians). -/
theorem cos_bound_interval (x : ℝ) (h1 : 0.79275 ≤ x) (h2 : x ≤ 0.79280) :
    0.665156 < Real.cos x ∧ Real.cos x < 0.706351 := by
  have hxnn : (0 : ℝ) ≤ x := by linarith
  have hxabs : |x| ≤ 1 := by
    rw [abs_le]
    constructor <;> linarith
  have hb := Real.cos_bound hxabs
  rw [abs_le, abs_of_nonneg hxnn] at hb
  have hsq2 : x ^ 2 ≤ 0.79280 ^ 2 := by
    have := pow_le_pow_left₀ hxnn h2 2
    simpa using this
  have hsq1 : 0.79275 ^ 2 ≤ x ^ 2 := by
    have := pow_le_pow_left₀ (by norm_num : (0:ℝ) ≤ 0.79275) h1 2
    simpa using this
  have hq2 : x ^ 4 ≤ (0.79280 ^ 2) ^ 2 := by
    have := pow_le_pow_left₀ (sq_nonneg x) hsq2 2
    calc x ^ 4 = (x ^ 2) ^ 2 := by ring
    _ ≤ (0.79280 ^ 2) ^ 2 := this
  have hq0 : 0 ≤ x ^ 4 := by positivity
  constructor
  · nlinarith [hb.1]
  · nlinarith [hb.2]

set_option maxHeartbeats 1000000 in
/-- Rigorous bounds for the code's haversine distance between the two
example points of the spec: it lies strictly between 0.44 km and
0.47 km. -/
theorem haversine_example_bounds :
    0.44 < haversine 45.4215 (-75.6972) 45.4236 (-75.7023) ∧
    haversine 45.4215 (-75.6972) 45.4236 (-75.7023) < 0.47 := by
  unfold haversine radians
  simp only []
  have hπl := Real.pi_gt_d6
  have hπu := Real.pi_lt_d6
  rw [show (-75.7023 * Real.pi / 180 - -75.6972 * Real.pi / 180) / 2 =
      -((75.7023 * Real.pi / 180 - 75.6972 * Real.pi / 180) / 2) from by ring]
  rw [Real.sin_neg, neg_sq]
  set u : ℝ := (45.4236 * Real.pi / 180 - 45.4215 * Real.pi / 180) / 2 with hu
  set w : ℝ := (75.7023 * Real.pi / 180 - 75.6972 * Real.pi / 180) / 2 with hw
  set x1 : ℝ := 45.4215 * Real.pi / 180 with hx1
  set x2 : ℝ := 45.4236 * Real.pi / 180 with hx2
  have hu1 : 0.0000183259 < u := by rw [hu]; linarith
  have hu2 : u < 0.0000183260 := by rw [hu]; linarith
  have hsu2 : Real.sin u < 0.0000183260 :=
    lt_trans (Real.sin_lt (by linarith)) hu2
  have hsu1 : 0.0000183258 < Real.sin u := by
    have hgt := Real.sin_gt_sub_cube (by linarith : 0 < u) (by linarith : u ≤ 1)
    have hcube : u ^ 3 < 0.0000183260 ^ 3 :=
      pow_lt_pow_left₀ hu2 (by linarith) (by norm_num)
    nlinarith
  have hsusq1 : 0.0000183258 ^ 2 < Real.sin u ^ 2 :=
    pow_lt_pow_left₀ hsu1 (by norm_num) (by norm_num)
  have hsusq2 : Real.sin u ^ 2 < 0.0000183260 ^ 2 :=
    pow_lt_pow_left₀ hsu2 (by linarith) (by norm_num)
  have hw1 : 0.0000445058 < w := by rw [hw]; linarith
  have hw2 : w < 0.0000445060 := by rw [hw]; linarith
  have hsw2 : Real.sin w < 0.0000445060 :=
    lt_trans (Real.sin_lt (by linarith)) hw2
  have hsw1 : 0.0000445057 < Real.sin w := by
    have hgt := Real.sin_gt_sub_cube (by linarith : 0 < w) (by linarith : w ≤ 1)
    have hcube : w ^ 3 < 0.0000445060 ^ 3 :=
      pow_lt_pow_left₀ hw2 (by linarith) (by norm_num)
    nlinarith
  have hswsq1 : 0.0000445057 ^ 2 < Real.sin w ^ 2 :=
    pow_lt_pow_left₀ hsw1 (by norm_num) (by norm_num)
  have hswsq2 : Real.sin w ^ 2 < 0.0000445060 ^ 2 :=
    pow_lt_pow_left₀ hsw2 (by linarith) (by norm_num)
  have hc1 := cos_bound_interval x1 (by rw [hx1]; linarith) (by rw [hx1]; linarith)
  have hc2 := cos_bound_interval x2 (by rw [hx2]; linarith) (by rw [hx2]; linarith)
  have hcc1 : 0.4424 < Real.cos x1 * Real.cos x2 := by
    nlinarith [hc1.1, hc2.1]
  have hcc2 : Real.cos x1 * Real.cos x2 < 0.49894 := by
    nlinarith [hc1.1, hc1.2, hc2.1, hc2.2]
  set A : ℝ := Real.sin u ^ 2 + Real.cos x1 * Real.cos x2 * Real.sin w ^ 2 with hA
  have hA1 : 0.0000000012 < A := by
    rw [hA]
    nlinarith
  have hA2 : A < 0.000000001325 := by
    rw [hA]
    nlinarith
  have hsq1 : (0.0000346 : ℝ) < Real.sqrt A := by
    rw [Real.lt_sqrt (by norm_num)]
    nlinarith
  have hsq2 : Real.sqrt A < 0.00003641 := by
    rw [Real.sqrt_lt' (by norm_num)]
    nlinarith
  have harcL : (0.0000346 : ℝ) < Real.arcsin 0.0000346 := by
    have hy : Real.sin (Real.arcsin 0.0000346) = 0.0000346 :=
      Real.sin_arcsin (by norm_num) (by norm_num)
    have hypos : 0 < Real.arcsin (0.0000346 : ℝ) := Real.arcsin_pos.mpr (by norm_num)
    have := Real.sin_lt hypos
    rw [hy] at this
    linarith
  have harcU : Real.arcsin 0.00003641 ≤ 0.0000367741 := by
    have hs : (0.00003641 : ℝ) ≤ Real.sin 0.0000367741 := by
      have hgt := Real.sin_gt_sub_cube
        (show (0:ℝ) < 0.0000367741 by norm_num) (by norm_num)
      nlinarith
    have hmono := Real.monotone_arcsin hs
    have heq : Real.arcsin (Real.sin 0.0000367741) = 0.0000367741 :=
      Real.arcsin_sin (by linarith) (by linarith)
    rw [heq] at hmono
    exact hmono
  have harc1 : (0.0000346 : ℝ) < Real.arcsin (Real.sqrt A) := by
    have := Real.monotone_arcsin (le_of_lt hsq1)
    linarith
  have harc2 : Real.arcsin (Real.sqrt A) ≤ 0.0000367741 := by
    have := Real.monotone_arcsin (le_of_lt hsq2)
    linarith
  constructor
  · linarith
  · linarith

/-- C9 (counterexample): the haversine distance between
(45.4215, −75.6972) and (45.4236, −75.7023) is below 0.47 km, so the
spec's claimed range 0.8–1.2 km is wrong. -/
theorem C9_counterexample :
    ¬ (0.8 ≤ haversine 45.4215 (-75.6972) 45.4236 (-75.7023) ∧
       haversine 45.4215 (-75.6972) 45.4236 (-75.7023) ≤ 1.2) := by
  intro h
  linarith [haversine_example_bounds.2, h.1]

/-- C9 (amended): the haversine distance (Earth radius 6371 km) between
(45.4215, −75.6972) and (45.4236, −75.7023) lies between 0.44 and
0.47 kilometres. -/
theorem C9_example_distance_amended :
    0.44 < haversine 45.4215 (-75.6972) 45.4236 (-75.7023) ∧
    haversine 45.4215 (-75.6972) 45.4236 (-75.7023) < 0.47 :=
  haversine_example_bounds

/-! ### Claim C1: structure of the heuristic route -/

/-- A closed tour for the heuristic: starts and ends at point 0, visiting
exactly the indices of `r` in between. -/
def TourShape (r t : List Nat) : Prop :=
  ∃ mid, t = 0 :: mid ++ [0] ∧ mid.Perm r

/-- The length of a shaped tour. -/
theorem tourShape_length (r t : List Nat) (h : TourShape r t) :
    t.length = r.length + 2 := by
  obtain ⟨mid, rfl, hp⟩ := h
  simp [hp.length_eq]

/-- Python `min` returns an element of the candidate pool. -/
theorem pyMinGo_mem (f : Nat → ℝ) :
    ∀ (l : List Nat) (b : Nat), pyMinGo f b l ∈ b :: l := by
  intro l
  induction l with
  | nil => intro b; simp [pyMinGo]
  | cons x xs ih =>
    intro b
    rw [pyMinGo]
    split
    · exact List.mem_cons_of_mem b (ih x)
    · rcases List.mem_cons.mp (ih b) with h | h
      · simp [h]
      · exact List.mem_cons_of_mem b (List.mem_cons_of_mem x h)

/-- The nearest-neighbour walk visits exactly the unvisited indices. -/
theorem nnAux_perm (m : List (List ℝ)) :
    ∀ (n : Nat) (unvisited : List Nat) (current : Nat),
      unvisited.length = n → (nnAux m n current unvisited).1.Perm unvisited := by
  intro n
  induction n with
  | zero =>
    intro unvis cur hlen
    rw [List.length_eq_zero] at hlen
    subst hlen
    simp [nnAux]
  | succ k ih =>
    intro unvis cur hlen
    cases unvis with
    | nil => simp at hlen
    | cons x xs =>
      rw [nnAux, pyMinBy]
      simp only []
      have hmem : pyMinGo (fun y => mEntry m cur y) x xs ∈ x :: xs :=
        pyMinGo_mem _ xs x
      have herase : ((x :: xs).erase
          (pyMinGo (fun y => mEntry m cur y) x xs)).length = k := by
        rw [List.length_erase_of_mem hmem]
        simpa using hlen
      have hih := ih _ (pyMinGo (fun y => mEntry m cur y) x xs) herase
      exact (hih.cons _).trans (List.perm_cons_erase hmem).symm

/-- Erasing the start index 0 from `range n`. -/
theorem range_erase_zero (n : Nat) (h : 1 ≤ n) :
    (List.range n).erase 0 = List.range' 1 (n - 1) := by
  obtain ⟨k, rfl⟩ : ∃ k, n = k + 1 := ⟨n - 1, by omega⟩
  rw [List.range_eq_range', List.range'_succ]
  simp

/-- The nearest-neighbour tour from point 0 is a closed tour over all
other indices. -/
theorem nearest_neighbor_shape (m : List (List ℝ)) (h2 : 2 ≤ m.length) :
    TourShape (List.range' 1 (m.length - 1)) (nearest_neighbor_tsp m 0).1 := by
  unfold nearest_neighbor_tsp
  rw [if_neg (by omega)]
  simp only []
  rw [range_erase_zero m.length (by omega)]
  exact ⟨(nnAux m (List.range' 1 (m.length - 1)).length 0
      (List.range' 1 (m.length - 1))).1, rfl,
    nnAux_perm m _ _ 0 rfl⟩

/-- A 2-opt move permutes the tour. -/
theorem twoOptSwap_perm (t : List Nat) (i j : Nat) (hij : i ≤ j + 1) :
    (twoOptSwap t i j).Perm t := by
  have hsplit : t.drop i = (t.drop i).take (j + 1 - i) ++ t.drop (j + 1) := by
    have h1 := List.take_append_drop (j + 1 - i) (t.drop i)
    rw [List.drop_drop] at h1
    have h2 : i + (j + 1 - i) = j + 1 := by omega
    rw [h2] at h1
    exact h1.symm
  unfold twoOptSwap
  conv_rhs => rw [← List.take_append_drop i t, hsplit]
  rw [List.append_assoc]
  exact List.Perm.append_left _ (List.Perm.append_right _ (List.reverse_perm _))

/-- A 2-opt move with interior indices preserves the closed-tour shape. -/
theorem twoOptSwap_shape (r t : List Nat) (i j : Nat)
    (hi : 1 ≤ i) (hij : i ≤ j) (hj : j + 2 ≤ t.length)
    (h : TourShape r t) : TourShape r (twoOptSwap t i j) := by
  obtain ⟨mid, heq, hperm⟩ := h
  have hlen : t.length = mid.length + 2 := by rw [heq]; simp
  have hjm : j ≤ mid.length := by omega
  obtain ⟨i0, rfl⟩ : ∃ i0, i = i0 + 1 := ⟨i - 1, by omega⟩
  have htake : t.take (i0 + 1) = 0 :: (mid ++ [0]).take i0 := by
    rw [heq, List.cons_append, List.take_succ_cons]
  have hdrop : t.drop (j + 1) = mid.drop j ++ [0] := by
    rw [heq, List.cons_append, List.drop_succ_cons]
    exact List.drop_append_of_le_length hjm
  have hdropi : t.drop (i0 + 1) = (mid ++ [0]).drop i0 := by
    rw [heq, List.cons_append, List.drop_succ_cons]
  have heq2 : twoOptSwap t (i0 + 1) j =
      0 :: ((mid ++ [0]).take i0 ++
        ((((mid ++ [0]).drop i0).take (j + 1 - (i0 + 1))).reverse ++ mid.drop j)) ++ [0] := by
    unfold twoOptSwap
    rw [htake, hdrop, hdropi]
    simp [List.append_assoc]
  refine ⟨_, heq2, ?_⟩
  have hp : (twoOptSwap t (i0 + 1) j).Perm t := twoOptSwap_perm t (i0 + 1) j (by omega)
  rw [heq2, heq] at hp
  have hp2 := hp.cons_inv
  have hp3 := ((List.perm_append_singleton 0 _).symm.trans
    (hp2.trans (List.perm_append_singleton 0 mid))).cons_inv
  exact hp3.trans hperm

/-- Invariant carried through the 2-opt loops: both the working tour and
the best tour are closed tours over `r`. -/
def StateShape (r : List Nat) (s : TwoOptState) : Prop :=
  TourShape r s.tour ∧ TourShape r s.best

/-- One candidate swap preserves the invariant. -/
theorem twoOptTry_shape (m : List (List ℝ)) (r : List Nat) (s : TwoOptState)
    (i j : Nat) (hi : 1 ≤ i) (hij : i ≤ j) (hj : j ≤ r.length)
    (h : StateShape r s) : StateShape r (twoOptTry m s i j) := by
  have hjt : j + 2 ≤ s.tour.length := by
    rw [tourShape_length r s.tour h.1]
    omega
  unfold twoOptTry
  simp only []
  split
  · exact ⟨twoOptSwap_shape r s.tour i j hi hij hjt h.1,
      twoOptSwap_shape r s.tour i j hi hij hjt h.1⟩
  · exact h

/-- Fold preservation helper. -/
theorem foldl_preserve {α β : Type} (P : β → Prop) (f : β → α → β) :
    ∀ (l : List α), (∀ b a, a ∈ l → P b → P (f b a)) →
      ∀ b, P b → P (l.foldl f b) := by
  intro l
  induction l with
  | nil => intro _ b hb; exact hb
  | cons x xs ih =>
    intro hf b hb
    rw [List.foldl_cons]
    exact ih (fun b2 a ha hb2 => hf b2 a (List.mem_cons_of_mem x ha) hb2)
      (f b x) (hf b x (List.mem_cons_self x xs) hb)

/-- One full 2-opt pass preserves the invariant. -/
theorem twoOptPass_shape (m : List (List ℝ)) (r : List Nat) (n : Nat)
    (hn : n = r.length + 2) (s : TwoOptState) (h : StateShape r s) :
    StateShape r (twoOptPass m n s) := by
  unfold twoOptPass
  apply foldl_preserve (StateShape r)
  · intro b i hi hb
    apply foldl_preserve (StateShape r)
    · intro b2 jj hjj hb2
      have hi2 := List.mem_range'_1.mp hi
      have hjj2 := List.mem_range'_1.mp hjj
      exact twoOptTry_shape m r b2 i jj (by omega) (by omega) (by omega) hb2
    · exact hb
  · exact h

/-- The bounded 2-opt loop preserves the invariant. -/
theorem twoOptLoop_shape (m : List (List ℝ)) (r : List Nat) (n : Nat)
    (hn : n = r.length + 2) :
    ∀ (fuel : Nat) (s : TwoOptState), StateShape r s →
      StateShape r (twoOptLoop m n fuel s) := by
  intro fuel
  induction fuel with
  | zero => intro s h; exact h
  | succ k ih =>
    intro s h
    rw [twoOptLoop]
    split
    · exact ih _ (twoOptPass_shape m r n hn _ ⟨h.1, h.2⟩)
    · exact h

/-- `two_opt_improvement` returns a closed tour over the same interior
indices as its input tour. -/
theorem two_opt_shape (cfg : RoutingConfig) (m : List (List ℝ))
    (r tour : List Nat) (h : TourShape r tour) :
    TourShape r (two_opt_improvement cfg m tour).1 := by
  unfold two_opt_improvement
  simp only []
  exact (twoOptLoop_shape m r tour.length (tourShape_length r tour h)
    cfg.tsp_iterations _ ⟨h, h⟩).2

/-- The order ids carried by one side of `all_stops`. -/
theorem buildStops_map_order_id (stype : String) (latf lngf : Order → ℝ) :
    ∀ (os : List Order) (base : Nat),
      (buildStops stype latf lngf base os).map (fun s => s.order_id) =
        os.map (fun o => o.id) := by
  intro os
  induction os with
  | nil => intro base; rfl
  | cons o os2 ih =>
    intro base
    rw [buildStops, List.map_cons, List.map_cons, ih]

/-- Every record built for one kind carries that kind. -/
theorem buildStops_mem_stype (stype : String) (latf lngf : Order → ℝ) :
    ∀ (os : List Order) (base : Nat) (s : StopInfo),
      s ∈ buildStops stype latf lngf base os → s.stype = stype := by
  intro os
  induction os with
  | nil => intro base s hs; simp [buildStops] at hs
  | cons o os2 ih =>
    intro base s hs
    rw [buildStops] at hs
    rcases List.mem_cons.mp hs with rfl | hmem
    · rfl
    · exact ih (base + 1) s hmem

/-- Indices below the base are not found. -/
theorem buildStops_find_isSome (stype : String) (latf lngf : Order → ℝ) :
    ∀ (os : List Order) (base idx : Nat), base ≤ idx → idx < base + os.length →
      ((buildStops stype latf lngf base os).find?
        (fun s => s.index == idx)).isSome = true := by
  intro os
  induction os with
  | nil => intro base idx h1 h2; simp at h2; omega
  | cons o os2 ih =>
    intro base idx h1 h2
    rw [buildStops]
    by_cases hb : idx = base
    · rw [List.find?_cons_of_pos _ (by simp [hb])]
      rfl
    · rw [List.find?_cons_of_neg _ (by simp; omega)]
      exact ih (base + 1) idx (by omega) (by simp at h2; omega)

/-- Indices at or past the end are not found. -/
theorem buildStops_find_none (stype : String) (latf lngf : Order → ℝ) :
    ∀ (os : List Order) (base idx : Nat), base + os.length ≤ idx →
      (buildStops stype latf lngf base os).find? (fun s => s.index == idx) = none := by
  intro os
  induction os with
  | nil => intro base idx h; rfl
  | cons o os2 ih =>
    intro base idx h
    simp only [List.length_cons] at h
    rw [buildStops]
    rw [List.find?_cons_of_neg _ (by simp; omega)]
    exact ih (base + 1) idx (by omega)

/-- Looking every index of the built range back up reproduces the built
list. -/
theorem buildStops_filterMap_self (stype : String) (latf lngf : Order → ℝ) :
    ∀ (os : List Order) (base : Nat),
      (List.range' base os.length).filterMap
        (fun idx => (buildStops stype latf lngf base os).find?
          (fun s => s.index == idx)) =
      buildStops stype latf lngf base os := by
  intro os
  induction os with
  | nil => intro base; rfl
  | cons o os2 ih =>
    intro base
    rw [buildStops, List.length_cons, List.range'_succ]
    rw [List.filterMap_cons]
    rw [List.find?_cons_of_pos _ (by simp)]
    have hcongr : ∀ idx ∈ List.range' (base + 1) os2.length,
        ((⟨o.id, stype, base, latf o, lngf o⟩ :: buildStops stype latf lngf (base + 1) os2).find?
          (fun s => s.index == idx)) =
        (buildStops stype latf lngf (base + 1) os2).find? (fun s => s.index == idx) := by
      intro idx hidx
      have h1 := (List.mem_range'_1.mp hidx).1
      exact List.find?_cons_of_neg _ (by simp; omega)
    rw [List.filterMap_congr hcongr, ih (base + 1)]

/-- Looking up every interior index in `all_stops` reproduces
`all_stops`: pickups at indices `1..k`, deliveries at `k+1..2k`. -/
theorem all_stops_filterMap (os : List Order) :
    (List.range' 1 (os.length + os.length)).filterMap
      (fun idx => (all_stops os).find? (fun s => s.index == idx)) = all_stops os := by
  unfold all_stops
  rw [← List.range'_append_1 1 os.length os.length]
  rw [List.filterMap_append]
  congr 1
  · have hcongr : ∀ idx ∈ List.range' 1 os.length,
        ((buildStops "pickup" (fun o => o.pickup_lat) (fun o => o.pickup_lng) 1 os ++
          buildStops "delivery" (fun o => o.delivery_lat) (fun o => o.delivery_lng)
            (1 + os.length) os).find? (fun s => s.index == idx)) =
        (buildStops "pickup" (fun o => o.pickup_lat) (fun o => o.pickup_lng) 1 os).find?
          (fun s => s.index == idx) := by
      intro idx hidx
      have h1 := List.mem_range'_1.mp hidx
      rw [List.find?_append]
      have hsome := buildStops_find_isSome "pickup" (fun o => o.pickup_lat)
        (fun o => o.pickup_lng) os 1 idx (by omega) (by omega)
      cases hfp : (buildStops "pickup" (fun o => o.pickup_lat) (fun o => o.pickup_lng)
          1 os).find? (fun s => s.index == idx) with
      | none => rw [hfp] at hsome; simp at hsome
      | some s => rfl
    rw [List.filterMap_congr hcongr]
    exact buildStops_filterMap_self "pickup" _ _ os 1
  · have hcongr : ∀ idx ∈ List.range' (1 + os.length) os.length,
        ((buildStops "pickup" (fun o => o.pickup_lat) (fun o => o.pickup_lng) 1 os ++
          buildStops "delivery" (fun o => o.delivery_lat) (fun o => o.delivery_lng)
            (1 + os.length) os).find? (fun s => s.index == idx)) =
        (buildStops "delivery" (fun o => o.delivery_lat) (fun o => o.delivery_lng)
          (1 + os.length) os).find? (fun s => s.index == idx) := by
      intro idx hidx
      have h1 := List.mem_range'_1.mp hidx
      rw [List.find?_append]
      rw [buildStops_find_none "pickup" _ _ os 1 idx (by omega)]
      rfl
    rw [List.filterMap_congr hcongr]
    exact buildStops_filterMap_self "delivery" _ _ os (1 + os.length)

/-- Renumbering keeps the length. -/
theorem renumberStops_length (l : List RouteStop) :
    (renumberStops l).length = l.length := by
  simp [renumberStops]

/-- The `i`-th renumbered stop is the `i`-th stop with sequence `i`. -/
theorem renumberStops_get (l : List RouteStop) (i : Nat) (h2 : i < l.length) :
    (renumberStops l).get ⟨i, by rw [renumberStops_length]; exact h2⟩ =
      { l.get ⟨i, h2⟩ with sequence := i } := by
  simp [renumberStops, List.get_eq_getElem]

/-- Renumbering does not change the (kind, order id) key sequence. -/
theorem renumberStops_map_key (l : List RouteStop) :
    (renumberStops l).map (fun s => (s.stop_type, s.order_id)) =
      l.map (fun s => (s.stop_type, s.order_id)) := by
  unfold renumberStops
  rw [List.map_map]
  rw [show ((fun s : RouteStop => (s.stop_type, s.order_id)) ∘
      (fun p : Nat × RouteStop => { p.2 with sequence := p.1 })) =
      ((fun s : RouteStop => (s.stop_type, s.order_id)) ∘ Prod.snd) from rfl]
  rw [← List.map_map]
  congr 1
  exact List.map_snd_zip _ _ (by simp)

/-- Order ids of the pickup stops of a stop list. -/
def pickIds (l : List RouteStop) : List String :=
  (l.filter (fun s => s.stop_type == "pickup")).map (fun s => s.order_id)

/-- Order ids of the delivery stops of a stop list. -/
def delIds (l : List RouteStop) : List String :=
  (l.filter (fun s => s.stop_type == "delivery")).map (fun s => s.order_id)

/-- `pickIds` only depends on the (kind, order id) key sequence. -/
theorem pickIds_eq_filterMap (l : List RouteStop) :
    pickIds l = (l.map (fun s => (s.stop_type, s.order_id))).filterMap
      (fun p => if p.1 == "pickup" then some p.2 else none) := by
  induction l with
  | nil => rfl
  | cons s l2 ih =>
    by_cases h : s.stop_type = "pickup" <;>
      simp [pickIds, List.filter_cons, List.filterMap_cons, h] <;>
      simpa [pickIds] using ih

/-- `delIds` only depends on the (kind, order id) key sequence. -/
theorem delIds_eq_filterMap (l : List RouteStop) :
    delIds l = (l.map (fun s => (s.stop_type, s.order_id))).filterMap
      (fun p => if p.1 == "delivery" then some p.2 else none) := by
  induction l with
  | nil => rfl
  | cons s l2 ih =>
    by_cases h : s.stop_type = "delivery" <;>
      simp [delIds, List.filter_cons, List.filterMap_cons, h] <;>
      simpa [delIds] using ih

/-- Renumbering does not change the pickup id sequence. -/
theorem pickIds_renumber (l : List RouteStop) :
    pickIds (renumberStops l) = pickIds l := by
  rw [pickIds_eq_filterMap, pickIds_eq_filterMap, renumberStops_map_key]

/-- Renumbering does not change the delivery id sequence. -/
theorem delIds_renumber (l : List RouteStop) :
    delIds (renumberStops l) = delIds l := by
  rw [delIds_eq_filterMap, delIds_eq_filterMap, renumberStops_map_key]

/-- `pickIds` distributes over append. -/
theorem pickIds_append (a b : List RouteStop) :
    pickIds (a ++ b) = pickIds a ++ pickIds b := by
  simp [pickIds, List.filter_append]

/-- `delIds` distributes over append. -/
theorem delIds_append (a b : List RouteStop) :
    delIds (a ++ b) = delIds a ++ delIds b := by
  simp [delIds, List.filter_append]

/-- On an all-pickup list, `pickIds` is the id projection. -/
theorem pickIds_all_pickup (l : List RouteStop)
    (h : ∀ s ∈ l, s.stop_type = "pickup") :
    pickIds l = l.map (fun s => s.order_id) := by
  unfold pickIds
  rw [List.filter_eq_self.mpr (fun s hs => by simp [h s hs])]

/-- On an all-delivery list, `pickIds` is empty. -/
theorem pickIds_all_delivery (l : List RouteStop)
    (h : ∀ s ∈ l, s.stop_type = "delivery") :
    pickIds l = [] := by
  unfold pickIds
  rw [List.filter_eq_nil_iff.mpr (fun s hs => by simp [h s hs])]
  rfl

/-- On an all-delivery list, `delIds` is the id projection. -/
theorem delIds_all_delivery (l : List RouteStop)
    (h : ∀ s ∈ l, s.stop_type = "delivery") :
    delIds l = l.map (fun s => s.order_id) := by
  unfold delIds
  rw [List.filter_eq_self.mpr (fun s hs => by simp [h s hs])]

/-- On an all-pickup list, `delIds` is empty. -/
theorem delIds_all_pickup (l : List RouteStop)
    (h : ∀ s ∈ l, s.stop_type = "pickup") :
    delIds l = [] := by
  unfold delIds
  rw [List.filter_eq_nil_iff.mpr (fun s hs => by simp [h s hs])]
  rfl

/-- `pickIds` maps permutations to permutations. -/
theorem pickIds_perm (l1 l2 : List RouteStop) (h : l1.Perm l2) :
    (pickIds l1).Perm (pickIds l2) := (h.filter _).map _

/-- `delIds` maps permutations to permutations. -/
theorem delIds_perm (l1 l2 : List RouteStop) (h : l1.Perm l2) :
    (delIds l1).Perm (delIds l2) := (h.filter _).map _

/-- The renumbered stops carry strictly increasing sequence numbers. -/
theorem renumberStops_pairwise (l : List RouteStop) :
    (renumberStops l).Pairwise (fun a b => a.sequence < b.sequence) := by
  apply List.pairwise_iff_get.mpr
  intro i j hij
  have hi : (i : Nat) < l.length := lt_of_lt_of_eq i.isLt (renumberStops_length l)
  have hj : (j : Nat) < l.length := lt_of_lt_of_eq j.isLt (renumberStops_length l)
  have e1 : (renumberStops l).get i = { l.get ⟨i.1, hi⟩ with sequence := i.1 } :=
    renumberStops_get l i.1 hi
  have e2 : (renumberStops l).get j = { l.get ⟨j.1, hj⟩ with sequence := j.1 } :=
    renumberStops_get l j.1 hj
  rw [e1, e2]
  exact hij

/-- On a list with strictly increasing sequences,
`enforce_pickup_before_delivery` merely partitions: pickups first, then
deliveries, renumbered. -/
theorem enforce_eq_of_sorted (l : List RouteStop)
    (h : l.Pairwise (fun a b => a.sequence < b.sequence)) :
    enforce_pickup_before_delivery l =
      renumberStops (l.filter (fun s => s.stop_type == "pickup") ++
        l.filter (fun s => s.stop_type == "delivery")) := by
  unfold enforce_pickup_before_delivery
  simp only []
  rw [List.mergeSort_of_sorted
      ((h.filter _).imp (fun hab => decide_eq_true (Nat.le_of_lt hab))),
    List.mergeSort_of_sorted
      ((h.filter _).imp (fun hab => decide_eq_true (Nat.le_of_lt hab)))]

/-- The pickup ids of the converted `all_stops` records are exactly the
batch's order ids. -/
theorem pickIds_all_stops (os : List Order) :
    pickIds ((all_stops os).map stopInfoToRouteStop) = os.map (fun o => o.id) := by
  unfold all_stops
  rw [List.map_append, pickIds_append]
  rw [pickIds_all_pickup _ (fun s hs => by
    obtain ⟨si, hsi, rfl⟩ := List.mem_map.mp hs
    exact buildStops_mem_stype _ _ _ _ _ si hsi)]
  rw [pickIds_all_delivery _ (fun s hs => by
    obtain ⟨si, hsi, rfl⟩ := List.mem_map.mp hs
    exact buildStops_mem_stype _ _ _ _ _ si hsi)]
  rw [List.append_nil, List.map_map]
  exact buildStops_map_order_id "pickup" _ _ os 1

/-- The delivery ids of the converted `all_stops` records are exactly the
batch's order ids. -/
theorem delIds_all_stops (os : List Order) :
    delIds ((all_stops os).map stopInfoToRouteStop) = os.map (fun o => o.id) := by
  unfold all_stops
  rw [List.map_append, delIds_append]
  rw [delIds_all_pickup _ (fun s hs => by
    obtain ⟨si, hsi, rfl⟩ := List.mem_map.mp hs
    exact buildStops_mem_stype _ _ _ _ _ si hsi)]
  rw [delIds_all_delivery _ (fun s hs => by
    obtain ⟨si, hsi, rfl⟩ := List.mem_map.mp hs
    exact buildStops_mem_stype _ _ _ _ _ si hsi)]
  rw [List.nil_append, List.map_map]
  exact buildStops_map_order_id "delivery" _ _ os (1 + os.length)

/-- The distance matrix is square in the number of points. -/
theorem create_distance_matrix_length (points : List (ℝ × ℝ)) :
    (create_distance_matrix points).length = points.length := by
  simp [create_distance_matrix]

/-- The length of the point list built by `heuristic_route`. -/
theorem points_matrix_length (os : List Order) (start : ℝ × ℝ) :
    (create_distance_matrix (start ::
      (os.map (fun o => (o.pickup_lat, o.pickup_lng)) ++
        os.map (fun o => (o.delivery_lat, o.delivery_lng))))).length =
      os.length + os.length + 1 := by
  rw [create_distance_matrix_length]
  simp

/-- The matched stop records of `heuristic_route` are a permutation of
`all_stops`: the improved tour's interior is a permutation of the point
indices `1..2k`, and looking each one up in `all_stops` succeeds. -/
theorem found_perm_all_stops (cfg : RoutingConfig) (os : List Order)
    (m : List (List ℝ)) (hm : m.length = os.length + os.length + 1)
    (hos : os.isEmpty = false) :
    (((two_opt_improvement cfg m (nearest_neighbor_tsp m 0).1).1.drop 1).dropLast.filterMap
      (fun idx => (all_stops os).find? (fun s => s.index == idx))).Perm
      (all_stops os) := by
  have hlen : 1 ≤ os.length := by
    cases os with
    | nil => simp at hos
    | cons a l => simp
  have h2 : 2 ≤ m.length := by omega
  have hnn := nearest_neighbor_shape m h2
  have hshape := two_opt_shape cfg m _ _ hnn
  obtain ⟨mid, heq, hperm⟩ := hshape
  have hint : ((two_opt_improvement cfg m
      (nearest_neighbor_tsp m 0).1).1.drop 1).dropLast = mid := by
    rw [heq, List.cons_append, List.drop_succ_cons, List.drop_zero]
    simp
  rw [hint]
  have hml : m.length - 1 = os.length + os.length := by omega
  have hperm2 : mid.Perm (List.range' 1 (os.length + os.length)) := by
    rw [← hml]
    exact hperm
  exact (hperm2.filterMap _).trans (by rw [all_stops_filterMap])

/-- The stop list of `heuristic_route` is a renumbered
pickups-then-deliveries partition of a tour-ordered stop list whose pickup
ids and delivery ids are each a permutation of the batch's order ids. -/
theorem heuristic_route_stops_struct (cfg : RoutingConfig) (b : Batch)
    (driver : Option (ℝ × ℝ)) :
    ∃ L : List RouteStop,
      (heuristic_route cfg b driver).stops =
        renumberStops (L.filter (fun s => s.stop_type == "pickup") ++
          L.filter (fun s => s.stop_type == "delivery")) ∧
      (pickIds L).Perm (b.orders.map (fun o => o.id)) ∧
      (delIds L).Perm (b.orders.map (fun o => o.id)) := by
  by_cases hne : b.orders.isEmpty = true
  · have hnil : b.orders = [] := List.isEmpty_iff.mp hne
    refine ⟨[], ?_, ?_, ?_⟩
    · unfold heuristic_route
      rw [if_pos hne]
      rfl
    · simp [hnil, pickIds]
    · simp [hnil, delIds]
  · rw [Bool.not_eq_true] at hne
    unfold heuristic_route
    rw [if_neg (by simp [hne])]
    simp only []
    refine ⟨_, enforce_eq_of_sorted _ (renumberStops_pairwise _), ?_, ?_⟩
    · rw [pickIds_renumber]
      refine (pickIds_perm _ _ ((found_perm_all_stops cfg b.orders _
        (points_matrix_length b.orders _) hne).map stopInfoToRouteStop)).trans ?_
      rw [pickIds_all_stops]
    · rw [delIds_renumber]
      refine (delIds_perm _ _ ((found_perm_all_stops cfg b.orders _
        (points_matrix_length b.orders _) hne).map stopInfoToRouteStop)).trans ?_
      rw [delIds_all_stops]

/-- `get?` through renumbering. -/
theorem renumberStops_getIdx (l : List RouteStop) (i : Nat) :
    (renumberStops l).get? i = (l.get? i).map (fun s => { s with sequence := i }) := by
  by_cases h : i < l.length
  · rw [List.get?_eq_get (show i < (renumberStops l).length by
      rwa [renumberStops_length]), List.get?_eq_get h]
    exact congrArg some (renumberStops_get l i h)
  · have h2 : l.length ≤ i := Nat.le_of_not_lt h
    rw [List.get?_eq_none.mpr (by rwa [renumberStops_length]),
      List.get?_eq_none.mpr h2]
    rfl

/-- In a renumbered pickups-then-deliveries partition every pickup's
sequence is strictly below every delivery's sequence. -/
theorem renumber_split_lt (P D : List RouteStop)
    (hP : ∀ s ∈ P, s.stop_type = "pickup")
    (hD : ∀ s ∈ D, s.stop_type = "delivery") :
    ∀ p ∈ renumberStops (P ++ D), ∀ d ∈ renumberStops (P ++ D),
      p.stop_type = "pickup" → d.stop_type = "delivery" →
      p.sequence < d.sequence := by
  intro p hp d hd hpt hdt
  obtain ⟨ip, hip⟩ := List.mem_iff_get.mp hp
  obtain ⟨jd, hjd⟩ := List.mem_iff_get.mp hd
  have hipl : (ip : Nat) < (P ++ D).length :=
    lt_of_lt_of_eq ip.isLt (renumberStops_length (P ++ D))
  have hjdl : (jd : Nat) < (P ++ D).length :=
    lt_of_lt_of_eq jd.isLt (renumberStops_length (P ++ D))
  have ep : p = { (P ++ D).get ⟨ip.1, hipl⟩ with sequence := ip.1 } := by
    rw [← hip]
    exact renumberStops_get _ _ hipl
  have ed : d = { (P ++ D).get ⟨jd.1, hjdl⟩ with sequence := jd.1 } := by
    rw [← hjd]
    exact renumberStops_get _ _ hjdl
  have hps : p.sequence = ip.1 := by rw [ep]
  have hds : d.sequence = jd.1 := by rw [ed]
  have hptype : ((P ++ D).get ⟨ip.1, hipl⟩).stop_type = "pickup" := by
    rw [ep] at hpt
    exact hpt
  have hdtype : ((P ++ D).get ⟨jd.1, hjdl⟩).stop_type = "delivery" := by
    rw [ed] at hdt
    exact hdt
  have hlenPD : (P ++ D).length = P.length + D.length := List.length_append P D
  have hiP : ip.1 < P.length := by
    by_contra hcon
    have hcon2 : P.length ≤ ip.1 := Nat.le_of_not_lt hcon
    have hlt : ip.1 - P.length < D.length := by omega
    have hgd : (P ++ D).get ⟨ip.1, hipl⟩ = D.get ⟨ip.1 - P.length, hlt⟩ := by
      simp only [List.get_eq_getElem]
      exact List.getElem_append_right hcon2
    have hdel : (D.get ⟨ip.1 - P.length, hlt⟩).stop_type = "delivery" :=
      hD _ (D.get_mem _ hlt)
    rw [hgd, hdel] at hptype
    exact absurd hptype (by decide)
  have hjD : P.length ≤ jd.1 := by
    by_contra hcon
    have hcon2 : jd.1 < P.length := Nat.lt_of_not_le hcon
    have hgp : (P ++ D).get ⟨jd.1, hjdl⟩ = P.get ⟨jd.1, hcon2⟩ := by
      simp only [List.get_eq_getElem]
      exact List.getElem_append_left hcon2
    have hpk : (P.get ⟨jd.1, hcon2⟩).stop_type = "pickup" :=
      hP _ (P.get_mem _ hcon2)
    rw [hgp, hpk] at hdtype
    exact absurd hdtype (by decide)
  rw [hps, hds]
  omega

open Classical in
/-- C1: through the heuristic path of `optimize_route`, the returned
route's stop list is all pickup stops (in tour order) followed by all
delivery stops (in tour order), renumbered `0..n-1`; its pickup ids and
its delivery ids are each a permutation of the batch's order ids; and for
every order id present, the pickup stop's sequence is strictly below the
delivery stop's sequence. -/
theorem C1_pickup_before_delivery (cfg : RoutingConfig) (avail : Bool)
    (b : Batch) (driver : Option (ℝ × ℝ)) :
    ∃ L : List RouteStop,
      (optimize_route cfg avail b driver "heuristic").stops =
        renumberStops (L.filter (fun s => s.stop_type == "pickup") ++
          L.filter (fun s => s.stop_type == "delivery")) ∧
      (pickIds (optimize_route cfg avail b driver "heuristic").stops).Perm
        (b.orders.map (fun o => o.id)) ∧
      (delIds (optimize_route cfg avail b driver "heuristic").stops).Perm
        (b.orders.map (fun o => o.id)) ∧
      (∀ (i : Nat) (s : RouteStop),
        (optimize_route cfg avail b driver "heuristic").stops.get? i = some s →
        s.sequence = i) ∧
      (∀ p, p ∈ (optimize_route cfg avail b driver "heuristic").stops →
        ∀ d, d ∈ (optimize_route cfg avail b driver "heuristic").stops →
        p.stop_type = "pickup" → d.stop_type = "delivery" →
        p.order_id = d.order_id → p.sequence < d.sequence) := by
  have hb : (("heuristic" == "vrp") && avail) = false := by
    rw [show ("heuristic" == "vrp") = false from rfl]
    exact Bool.false_and avail
  have hopt : optimize_route cfg avail b driver "heuristic" =
      heuristic_route cfg b driver := by
    unfold optimize_route
    rw [if_neg (by simp [hb])]
  rw [hopt]
  obtain ⟨L, hstops, hpick, hdel⟩ := heuristic_route_stops_struct cfg b driver
  have hP : ∀ s ∈ L.filter (fun s => s.stop_type == "pickup"),
      s.stop_type = "pickup" := by
    intro s hs
    simpa using (List.mem_filter.mp hs).2
  have hD : ∀ s ∈ L.filter (fun s => s.stop_type == "delivery"),
      s.stop_type = "delivery" := by
    intro s hs
    simpa using (List.mem_filter.mp hs).2
  refine ⟨L, hstops, ?_, ?_, ?_, ?_⟩
  · rw [hstops, pickIds_renumber, pickIds_append, pickIds_all_pickup _ hP,
      pickIds_all_delivery _ hD, List.append_nil]
    exact hpick
  · rw [hstops, delIds_renumber, delIds_append, delIds_all_pickup _ hP,
      delIds_all_delivery _ hD, List.nil_append]
    exact hdel
  · intro i s hsome
    rw [hstops, renumberStops_getIdx] at hsome
    cases hM : (L.filter (fun s => s.stop_type == "pickup") ++
        L.filter (fun s => s.stop_type == "delivery")).get? i with
    | none => rw [hM] at hsome; simp at hsome
    | some s0 =>
      rw [hM] at hsome
      simp at hsome
      rw [← hsome]
  · intro p hp d hd hpt hdt hoid
    rw [hstops] at hp hd
    exact renumber_split_lt _ _ hP hD p hp d hd hpt hdt

/-- Open pickups of a stop-dictionary list: pickup stops served so far
minus delivery stops served so far. -/
def openPickups (l : List FallbackStop) : ℤ :=
  (l.countP (fun s => s.stop_type == "pickup") : ℤ) -
    (l.countP (fun s => s.stop_type == "delivery") : ℤ)

/-- `openPickups` is additive. -/
theorem openPickups_append (a b : List FallbackStop) :
    openPickups (a ++ b) = openPickups a + openPickups b := by
  unfold openPickups
  rw [List.countP_append, List.countP_append]
  push_cast
  ring

/-- `openPickups` of one stop is its capacity delta. -/
theorem openPickups_single (s : FallbackStop) :
    openPickups [s] = if s.stop_type == "pickup" then 1
      else if s.stop_type == "delivery" then -1 else 0 := by
  unfold openPickups
  by_cases h1 : s.stop_type = "pickup"
  · simp [List.countP_cons, h1]
  · by_cases h2 : s.stop_type = "delivery"
    · simp [List.countP_cons, h1, h2]
    · simp [List.countP_cons, h1, h2]

open Classical in
/-- The nearest-feasible scan only returns a remaining stop whose
admission respects the capacity check. -/
theorem selectNearest_spec (cap used : ℤ) (cur : SLocation)
    (remaining : List VStop) (s : VStop) (d : ℝ)
    (h : selectNearest cap used cur remaining = some (s, d)) :
    s ∈ remaining ∧ used + capacityChange s ≤ cap := by
  unfold selectNearest at h
  have main := foldl_preserve
    (fun acc : Option (VStop × ℝ) => ∀ p : VStop × ℝ, acc = some p →
      p.1 ∈ remaining ∧ used + capacityChange p.1 ≤ cap)
    (fun acc s2 =>
      let d2 := distance_to cur s2.location
      match acc with
      | none => if used + capacityChange s2 ≤ cap then some (s2, d2) else none
      | some (b, bd) =>
        if d2 < bd ∧ used + capacityChange s2 ≤ cap then some (s2, d2)
        else some (b, bd))
    remaining
    (by
      intro acc x hx hacc
      intro p hp
      simp only [] at hp
      cases acc with
      | none =>
        simp only [] at hp
        by_cases hc : used + capacityChange x ≤ cap
        · rw [if_pos hc] at hp
          have hpe := Option.some.inj hp
          rw [← hpe]
          exact ⟨hx, hc⟩
        · rw [if_neg hc] at hp
          exact absurd hp (by simp)
      | some pr =>
        obtain ⟨b2, bd⟩ := pr
        simp only [] at hp
        by_cases hc : distance_to cur x.location < bd ∧
            used + capacityChange x ≤ cap
        · rw [if_pos hc] at hp
          have hpe := Option.some.inj hp
          rw [← hpe]
          exact ⟨hx, hc.2⟩
        · rw [if_neg hc] at hp
          exact hacc p hp)
    none
    (by intro p hp; exact absurd hp (by simp))
  exact main (s, d) h

/-- When the running load already reaches the capacity bound, the vehicle
loop does nothing. -/
theorem fallbackVehicleLoop_stuck (tt : SLocation → SLocation → ℤ × ℝ)
    (cap : ℤ) (fuel : Nat) (cur : SLocation) (st : FallbackVehicleState)
    (h : ¬ st.used < cap) :
    fallbackVehicleLoop tt cap fuel cur st = st := by
  cases fuel with
  | zero => rfl
  | succ n =>
    rw [fallbackVehicleLoop]
    rw [if_neg (fun hc => h hc.2)]

/-- Invariant of the greedy vehicle loop: the running load equals the
open pickups of the route built so far and every prefix of that route
keeps its open pickups within the capacity. -/
theorem fallbackVehicleLoop_capacity (tt : SLocation → SLocation → ℤ × ℝ)
    (cap : ℤ) :
    ∀ (fuel : Nat) (cur : SLocation) (st : FallbackVehicleState),
      st.used = openPickups st.route → st.used ≤ cap →
      (∀ k, openPickups (st.route.take k) ≤ cap) →
      (fallbackVehicleLoop tt cap fuel cur st).used =
          openPickups (fallbackVehicleLoop tt cap fuel cur st).route ∧
        (fallbackVehicleLoop tt cap fuel cur st).used ≤ cap ∧
        ∀ k, openPickups ((fallbackVehicleLoop tt cap fuel cur st).route.take k) ≤
          cap := by
  intro fuel
  induction fuel with
  | zero => intro cur st h1 h2 h3; exact ⟨h1, h2, h3⟩
  | succ n ih =>
    intro cur st h1 h2 h3
    rw [fallbackVehicleLoop]
    by_cases hcond : st.remaining.isEmpty = false ∧ st.used < cap
    · rw [if_pos hcond]
      cases hsel : selectNearest cap st.used cur st.remaining with
      | none => exact ⟨h1, h2, h3⟩
      | some pr =>
        obtain ⟨s, dd⟩ := pr
        have hspec := selectNearest_spec cap st.used cur st.remaining s dd hsel
        have huple : st.used + capacityUpdate s ≤ cap := by
          by_cases hpk : s.stop_type = "pickup"
          · have hcu : capacityUpdate s = 1 := by simp [capacityUpdate, hpk]
            have hcc : capacityChange s = 1 := by simp [capacityChange, hpk]
            have h4 := hspec.2
            rw [hcc] at h4
            rw [hcu]
            exact h4
          · have hcu : capacityUpdate s ≤ 0 := by
              by_cases hdl : s.stop_type = "delivery" <;>
                simp [capacityUpdate, hpk, hdl]
            omega
        simp only []
        apply ih
        · simp only []
          rw [openPickups_append, ← h1, openPickups_single]
          rfl
        · simp only []
          exact huple
        · intro k
          simp only []
          rw [List.take_append_eq_append_take, openPickups_append]
          by_cases hk : k ≤ st.route.length
          · have hz : k - st.route.length = 0 := by omega
            rw [hz, List.take_zero]
            have h5 := h3 k
            have h0 : openPickups [] = 0 := rfl
            rw [h0, add_zero]
            exact h5
          · rw [List.take_of_length_le (by omega),
              List.take_of_length_le (by simp; omega)]
            rw [openPickups_single, ← h1]
            exact huple
    · rw [if_neg hcond]
      exact ⟨h1, h2, h3⟩

open Classical in
/-- The per-vehicle fold of `_fallback_solver` only accumulates results
whose route respects the capacity bound of one of the vehicles. -/
theorem fallback_fold_capacity (tt : SLocation → SLocation → ℤ × ℝ)
    (vehicles : List Vehicle) (dep : SLocation)
    (init : List RouteResult × List VStop)
    (hinit : ∀ r ∈ init.1, ∃ v, v ∈ vehicles ∧ r.vehicle_id = v.vid ∧
      ∀ k, openPickups (r.stops.take k) ≤ v.capacity) :
    ∀ r ∈ (vehicles.foldl (fun acc v =>
      if acc.2.isEmpty then acc
      else
        let final := fallbackVehicleLoop tt v.capacity acc.2.length dep
          { route := [], remaining := acc.2, used := 0, totalTime := 0,
            totalDist := 0 }
        if final.route.isEmpty then (acc.1, final.remaining)
        else
          let res : RouteResult :=
            { vehicle_id := v.vid, stops := final.route,
              total_distance_km := pyRound2 final.totalDist,
              total_duration_minutes := final.totalTime / 60,
              load_sequence := [], arrival_times := [],
              optimization_score :=
                calculate_optimization_score final.route final.totalDist
                  final.totalTime v }
          (acc.1 ++ [res], final.remaining)) init).1,
      ∃ v, v ∈ vehicles ∧ r.vehicle_id = v.vid ∧
        ∀ k, openPickups (r.stops.take k) ≤ v.capacity := by
  apply foldl_preserve
    (fun acc : List RouteResult × List VStop => ∀ r ∈ acc.1,
      ∃ v, v ∈ vehicles ∧ r.vehicle_id = v.vid ∧
        ∀ k, openPickups (r.stops.take k) ≤ v.capacity)
    _ vehicles ?_ init hinit
  intro acc v hv hP
  simp only []
  by_cases h2 : acc.2.isEmpty = true
  · rw [if_pos h2]
    exact hP
  · rw [if_neg h2]
    by_cases h3 : (fallbackVehicleLoop tt v.capacity acc.2.length dep
        { route := [], remaining := acc.2, used := 0, totalTime := 0,
          totalDist := 0 }).route.isEmpty = true
    · rw [if_pos h3]
      intro r2 hr2
      exact hP r2 hr2
    · rw [if_neg h3]
      intro r2 hr2
      simp only [] at hr2
      rcases List.mem_append.mp hr2 with hr3 | hr4
      · exact hP r2 hr3
      · have hrr := List.eq_of_mem_singleton hr4
        subst hrr
        refine ⟨v, hv, rfl, ?_⟩
        intro k
        by_cases hcap : (0 : ℤ) < v.capacity
        · have hloop := fallbackVehicleLoop_capacity tt v.capacity
            acc.2.length dep
            { route := [], remaining := acc.2, used := 0, totalTime := 0,
              totalDist := 0 }
            rfl (show (0 : ℤ) ≤ v.capacity by omega) (fun k2 => by
              rw [List.take_nil]
              show (0 : ℤ) ≤ v.capacity
              omega)
          exact hloop.2.2 k
        · exfalso
          have hstuck := fallbackVehicleLoop_stuck tt v.capacity
            acc.2.length dep
            { route := [], remaining := acc.2, used := 0, totalTime := 0,
              totalDist := 0 } hcap
          rw [hstuck] at h3
          exact h3 rfl

open Classical in
/-- C5 (amended, capacity half): every route the greedy fallback solver
returns belongs to one of the vehicles, and walking its stop list in
order, the running number of open pickups never exceeds that vehicle's
capacity. -/
theorem C5_fallback_capacity_amended (tt : SLocation → SLocation → ℤ × ℝ)
    (vehicles : List Vehicle) (stops : List VStop)
    (results : List RouteResult)
    (hres : fallback_solver tt vehicles stops = some results) :
    ∀ res ∈ results, ∃ v, v ∈ vehicles ∧ res.vehicle_id = v.vid ∧
      ∀ k, openPickups (res.stops.take k) ≤ v.capacity := by
  unfold fallback_solver at hres
  cases stops with
  | nil => exact absurd hres (by simp)
  | cons s0 rest =>
    simp only [] at hres
    have heq := Option.some.inj hres
    intro res hres2
    rw [← heq] at hres2
    exact fallback_fold_capacity tt vehicles _ _
      (by intro r hr; exact absurd hr (by simp)) res hres2

/-- A travel-time provider answering zero seconds and zero kilometres. -/
noncomputable def ttC5 : SLocation → SLocation → ℤ × ℝ := fun _ _ => (0, 0)

/-- One shared location for the solver scenario. -/
noncomputable def locC5a : SLocation := { lat := 0, lng := 0, lid := "L0" }

/-- The depot stop of the solver scenario. -/
noncomputable def depotC5 : VStop :=
  { sid := "s0", location := locC5a, stop_type := "depot", order_id := none,
    service_time := 0, time_window := none, priority := 0 }

/-- The delivery stop of order `o1`, listed before its pickup. -/
noncomputable def delivC5 : VStop :=
  { sid := "s2", location := locC5a, stop_type := "delivery",
    order_id := some "o1", service_time := 0, time_window := none,
    priority := 0 }

/-- The pickup stop of order `o1`. -/
noncomputable def pickC5 : VStop :=
  { sid := "s1", location := locC5a, stop_type := "pickup",
    order_id := some "o1", service_time := 0, time_window := none,
    priority := 0 }

/-- The single vehicle of the solver scenario, capacity 1. -/
noncomputable def vehC5 : Vehicle :=
  { vid := "v1", start_location := locC5a, end_location := none,
    capacity := 1, max_duration := 0, vehicle_type := "car" }

/-- The stop dictionary the fallback builds for the delivery (sequence
0). -/
noncomputable def fsDelivC5 : FallbackStop :=
  { stop_id := "s2", order_id := some "o1", stop_type := "delivery",
    lat := 0, lng := 0, sequence := 0, arrival_time := 0, service_time := 0 }

/-- The stop dictionary the fallback builds for the pickup (sequence
1). -/
noncomputable def fsPickC5 : FallbackStop :=
  { stop_id := "s1", order_id := some "o1", stop_type := "pickup",
    lat := 0, lng := 0, sequence := 1, arrival_time := 0, service_time := 0 }

/-- The route result the fallback solver returns on the scenario. -/
noncomputable def resC5 : RouteResult :=
  { vehicle_id := "v1", stops := [fsDelivC5, fsPickC5],
    total_distance_km := pyRound2 0, total_duration_minutes := 0,
    load_sequence := [], arrival_times := [],
    optimization_score :=
      calculate_optimization_score [fsDelivC5, fsPickC5] 0 0 vehC5 }

/-- Exhausted fuel stops the vehicle loop. -/
theorem fallbackVehicleLoop_zero (tt : SLocation → SLocation → ℤ × ℝ)
    (cap : ℤ) (cur : SLocation) (st : FallbackVehicleState) :
    fallbackVehicleLoop tt cap 0 cur st = st := rfl

/-- The feasibility delta of the scenario's pickup. -/
theorem capacityChange_pickC5 : capacityChange pickC5 = 1 := by
  simp [capacityChange, pickC5]

/-- The feasibility delta of the scenario's delivery. -/
theorem capacityChange_delivC5 : capacityChange delivC5 = -1 := by
  simp [capacityChange, delivC5]

/-- The load update of the scenario's pickup. -/
theorem capacityUpdate_pickC5 : capacityUpdate pickC5 = 1 := by
  simp [capacityUpdate, pickC5]

/-- The load update of the scenario's delivery. -/
theorem capacityUpdate_delivC5 : capacityUpdate delivC5 = -1 := by
  simp [capacityUpdate, delivC5]

/-- First scan: the delivery is admitted and the co-located pickup is
not strictly closer, so the delivery is kept. -/
theorem selectNearest_C5_first (cur : SLocation) :
    selectNearest 1 0 cur [delivC5, pickC5] =
      some (delivC5, distance_to cur delivC5.location) := by
  unfold selectNearest
  rw [List.foldl_cons, List.foldl_cons, List.foldl_nil]
  simp only []
  rw [if_pos (show (0 : ℤ) + capacityChange delivC5 ≤ 1 by
    rw [capacityChange_delivC5]; norm_num)]
  simp only []
  rw [if_neg (fun hc =>
    lt_irrefl (distance_to cur locC5a) hc.1)]

/-- Second scan: the pickup is the only remaining stop and is admitted
at load `-1`. -/
theorem selectNearest_C5_second (cur : SLocation) :
    selectNearest 1 (-1) cur [pickC5] =
      some (pickC5, distance_to cur pickC5.location) := by
  unfold selectNearest
  rw [List.foldl_cons, List.foldl_nil]
  simp only []
  rw [if_pos (show (-1 : ℤ) + capacityChange pickC5 ≤ 1 by
    rw [capacityChange_pickC5]; norm_num)]

/-- Second loop iteration of the scenario: the pickup is appended with
sequence 1. -/
theorem C5_loop_tail (cur : SLocation) :
    fallbackVehicleLoop ttC5 1 1 cur
      { route := [fsDelivC5], remaining := [pickC5], used := -1,
        totalTime := 0, totalDist := 0 } =
      { route := [fsDelivC5, fsPickC5], remaining := [], used := 0,
        totalTime := 0, totalDist := 0 } := by
  rw [fallbackVehicleLoop]
  rw [if_pos ⟨rfl, show (-1 : ℤ) < 1 by norm_num⟩]
  simp only []
  rw [selectNearest_C5_second cur]
  simp only []
  rw [fallbackVehicleLoop_zero]
  simp only [List.erase_cons_head, capacityUpdate_pickC5,
    show (ttC5 cur pickC5.location).1 = 0 from rfl,
    show (ttC5 cur pickC5.location).2 = (0 : ℝ) from rfl,
    show pickC5.service_time = 0 from rfl,
    show pickC5.sid = "s1" from rfl,
    show pickC5.order_id = some "o1" from rfl,
    show pickC5.stop_type = "pickup" from rfl,
    show pickC5.location.lat = (0 : ℝ) from rfl,
    show pickC5.location.lng = (0 : ℝ) from rfl,
    List.length_cons, List.length_nil, zero_add, add_zero, sub_zero]
  rw [show ([fsDelivC5] ++
      [({ stop_id := "s1", order_id := some "o1", stop_type := "pickup",
            lat := 0, lng := 0, sequence := 1, arrival_time := 0,
            service_time := 0 } : FallbackStop)]) = [fsDelivC5, fsPickC5]
    from rfl]
  rw [show (-1 : ℤ) + 1 = 0 from by norm_num]

/-- The whole vehicle loop of the scenario: delivery first, pickup
second. -/
theorem C5_loop_eval (cur : SLocation) :
    fallbackVehicleLoop ttC5 1 2 cur
      { route := [], remaining := [delivC5, pickC5], used := 0,
        totalTime := 0, totalDist := 0 } =
      { route := [fsDelivC5, fsPickC5], remaining := [], used := 0,
        totalTime := 0, totalDist := 0 } := by
  rw [fallbackVehicleLoop]
  rw [if_pos ⟨rfl, show (0 : ℤ) < 1 by norm_num⟩]
  simp only []
  rw [selectNearest_C5_first cur]
  simp only []
  simp only [List.nil_append, List.erase_cons_head, capacityUpdate_delivC5,
    show (ttC5 cur delivC5.location).1 = 0 from rfl,
    show (ttC5 cur delivC5.location).2 = (0 : ℝ) from rfl,
    show delivC5.service_time = 0 from rfl,
    show delivC5.sid = "s2" from rfl,
    show delivC5.order_id = some "o1" from rfl,
    show delivC5.stop_type = "delivery" from rfl,
    show delivC5.location.lat = (0 : ℝ) from rfl,
    show delivC5.location.lng = (0 : ℝ) from rfl,
    List.length_nil, zero_add, add_zero, sub_zero]
  rw [show ({ stop_id := "s2", order_id := some "o1", stop_type := "delivery",
              lat := 0, lng := 0, sequence := 0, arrival_time := 0,
              service_time := 0 } : FallbackStop) = fsDelivC5 from rfl]
  exact C5_loop_tail delivC5.location

/-- Full evaluation of the fallback solver on the scenario. -/
theorem fallback_solver_C5_eval :
    fallback_solver ttC5 [vehC5] [depotC5, delivC5, pickC5] =
      some [resC5] := by
  unfold fallback_solver
  simp only []
  rw [List.foldl_cons, List.foldl_nil]
  simp only []
  rw [show [depotC5, delivC5, pickC5].filter
      (fun s => s.stop_type != "depot") = [delivC5, pickC5] from by
    simp [depotC5, delivC5, pickC5]]
  rw [if_neg (by simp)]
  rw [show vehC5.capacity = (1 : ℤ) from rfl]
  rw [show [delivC5, pickC5].length = 2 from rfl]
  rw [C5_loop_eval]
  rw [if_neg (by simp)]
  simp only []
  rw [show vehC5.vid = "v1" from rfl]
  rw [show ((0 : ℤ) / 60) = 0 from by norm_num]
  rw [List.nil_append]
  rfl

/-- C5 is refuted on its pairing half: on a depot, a delivery and a
co-located pickup of the same order (the delivery listed first), the
greedy fallback serves the delivery at sequence 0 and the pickup at
sequence 1. -/
theorem C5_counterexample :
    ∃ res ∈ (fallback_solver ttC5 [vehC5]
        [depotC5, delivC5, pickC5]).getD [],
      ∃ p ∈ res.stops, ∃ d ∈ res.stops,
        p.stop_type = "pickup" ∧ d.stop_type = "delivery" ∧
        p.order_id = d.order_id ∧ d.sequence < p.sequence := by
  rw [fallback_solver_C5_eval, Option.getD_some]
  refine ⟨resC5, by simp, fsPickC5, by simp [resC5], fsDelivC5,
    by simp [resC5], rfl, rfl, rfl, ?_⟩
  show (0 : Nat) < 1
  norm_num

/-- Witness: the capacity bound holds on the scenario's returned
route. -/
theorem C5_fallback_capacity_amended_witness :
    ∃ v, v ∈ [vehC5] ∧ resC5.vehicle_id = v.vid ∧
      ∀ k, openPickups (resC5.stops.take k) ≤ v.capacity :=
  C5_fallback_capacity_amended ttC5 [vehC5] [depotC5, delivC5, pickC5]
    [resC5] fallback_solver_C5_eval resC5 (List.mem_singleton.mpr rfl)

end RoutingSpec
